import Mathlib

/-!
Verification of the IPL opposition-scouting analysis core against its design
specification.  The Python modules `zone_mapper.py`, `outlier_detector.py`,
`writeup_generator.py`, `wagon_wheel.py` and `utils.py` are shallowly embedded
below: numeric cell values are idealised as real numbers (`ℝ`, with `none`
standing for a missing/NaN cell), pandas frames become lists of rows, and the
string-assembly code is mirrored over `List Char` where needed for reasoning.
-/

namespace IPL

/-! ### Zone mapper (`zone_mapper.py`)

The two Python dicts are embedded as association lists (insertion order kept),
and `dict.get key default` as a `find?` followed by `getD`. -/

/-- Zone mapping for right-handed batters, from `RHB_ZONES` in `zone_mapper.py`. -/
def RHB_ZONES : List (Int × String) :=
  [(1, "Fine Leg"), (2, "Square Leg"), (3, "Mid Wicket"), (4, "Mid On"),
   (5, "Mid Off"), (6, "Covers"), (7, "Point"), (8, "Third Man")]

/-- Zone mapping for left-handed batters, from `LHB_ZONES` in `zone_mapper.py`:
zones 4 and 5 are swapped relative to `RHB_ZONES`. -/
def LHB_ZONES : List (Int × String) :=
  [(1, "Fine Leg"), (2, "Square Leg"), (3, "Mid Wicket"), (4, "Mid Off"),
   (5, "Mid On"), (6, "Covers"), (7, "Point"), (8, "Third Man")]

/-- Python `dict.get k` on an association list: first binding of the key. -/
def dictGet (d : List (Int × String)) (k : Int) : Option String :=
  (d.find? (fun p => p.1 == k)).map (fun p => p.2)

/-- Embedding of `get_zone_name(zone_number, batting_hand)`: looks the zone up
in the hand-appropriate dict, defaulting to the label `"Zone {n}"` (the
`dict.get` default) when the zone id is not a key. -/
def get_zone_name (zone_number : Int) (batting_hand : String) : String :=
  if batting_hand = "LHB" then
    (dictGet LHB_ZONES zone_number).getD ("Zone " ++ toString zone_number)
  else
    (dictGet RHB_ZONES zone_number).getD ("Zone " ++ toString zone_number)

/-! ### Write-up validation (`utils.py`) -/

/-- The write-up record produced by `generate_writeup` (a Python dict with
these keys); `validate_writeup` reads the three count fields. -/
structure Writeup where
  batter_name : String
  batting_hand : String
  writeup : String
  insights : List String
  word_count : Nat
  line_count : Nat
  num_insights : Nat

/-- Result dict of `validate_writeup`. -/
structure Validation where
  valid : Bool
  warnings : List String
  errors : List String

/-- Embedding of `validate_writeup(writeup, max_words, max_lines)` from
`utils.py`: word count over the limit is an error and flips `valid`; line
count over the limit and fewer than 3 insights only append warnings. -/
def validate_writeup (w : Writeup) (max_words : Nat) (max_lines : Nat) : Validation :=
  let v0 : Validation := { valid := true, warnings := [], errors := [] }
  let msgWords := "Word count (" ++ toString w.word_count ++ ") exceeds limit (" ++ toString max_words ++ ")"
  let msgLines := "Line count (" ++ toString w.line_count ++ ") exceeds recommended limit (" ++ toString max_lines ++ ")"
  let msgFew := "Only " ++ toString w.num_insights ++ " insights generated (expected 5)"
  let v1 := if max_words < w.word_count then { v0 with valid := false, errors := v0.errors ++ [msgWords] } else v0
  let v2 := if max_lines < w.line_count then { v1 with warnings := v1.warnings ++ [msgLines] } else v1
  if w.num_insights < 3 then { v2 with warnings := v2.warnings ++ [msgFew] } else v2

/-! ### Wagon wheel geometry (`wagon_wheel.py`)

Angles are exact rationals (22.5 = 45/2 degrees and so on).  The plotly
parallel arrays (`fours_theta`/`fours_r`/marker arrays) are gathered into one
`Spoke` record per emitted spoke; the flat arrays in the source hold exactly
the same data (`[theta, theta, None]`, `[0, ROPE_RADIUS, None]`, marker at the
rope with the clamped size). -/

/-- `ROPE_RADIUS = 100.0`: the constant boundary-rope radius. -/
def ROPE_RADIUS : ℚ := 100

/-- Labels of `ZONE_MAPPING` in `wagon_wheel.py`. -/
def wagonZoneLabel : Int → String
  | 1 => "Fine Leg"
  | 2 => "Square Leg"
  | 3 => "Mid Wicket"
  | 4 => "Mid On"
  | 5 => "Mid Off"
  | 6 => "Covers"
  | 7 => "Point"
  | 8 => "Third Man"
  | _ => ""

/-- Angles (`theta`, in degrees) of `ZONE_MAPPING`: zone n sits at 45n - 22.5
degrees.  Only zones 1..8 are ever looked up by the source. -/
def wagonZoneTheta : Int → ℚ
  | 1 => 45 / 2
  | 2 => 135 / 2
  | 3 => 225 / 2
  | 4 => 315 / 2
  | 5 => 405 / 2
  | 6 => 495 / 2
  | 7 => 585 / 2
  | 8 => 675 / 2
  | _ => 0

/-- The zone ids iterated by `for zone_num in range(1, 9)`. -/
def zoneNums : List Int := [1, 2, 3, 4, 5, 6, 7, 8]

/-- One row of the boundary-count table: `bat` name plus the integer counts
read by `int(batter_data.get(col, 0))` (absent columns read as 0). -/
structure WagonRow where
  bat : String
  counts : String → Int

/-- One element of the `zone_data` list built in `create_wagon_wheel`. -/
structure ZoneDatum where
  zone : Int
  label : String
  theta : ℚ
  fours : Int
  sixes : Int

/-- The `zone_data` list: one entry per zone 1..8 with the two counts. -/
def build_zone_data (row : WagonRow) : List ZoneDatum :=
  zoneNums.map (fun z =>
    { zone := z, label := wagonZoneLabel z, theta := wagonZoneTheta z,
      fours := row.counts ("fours_wagonZone" ++ toString z),
      sixes := row.counts ("sixes_wagonZone" ++ toString z) })

/-- One rendered spoke: the line runs from `rStart` to `rEnd` at angle
`theta`; the tip marker sits at radius `markerR` with size `markerSize`. -/
structure Spoke where
  theta : ℚ
  rStart : ℚ
  rEnd : ℚ
  markerR : ℚ
  markerSize : Int
  hover : String

/-- Fours spokes of `create_wagon_wheel`: one spoke per zone with
`zd['fours'] > 0`, reaching the rope, marker size `min(8 + fours*2, 40)`. -/
def foursSpokes (row : WagonRow) : List Spoke :=
  (build_zone_data row).filterMap (fun zd =>
    if 0 < zd.fours then
      some { theta := zd.theta, rStart := 0, rEnd := ROPE_RADIUS,
             markerR := ROPE_RADIUS, markerSize := min (8 + zd.fours * 2) 40,
             hover := "<b>" ++ zd.label ++ "</b><br>Fours: " ++ toString zd.fours }
    else none)

/-- Sixes spokes of `create_wagon_wheel`: like `foursSpokes` but for the sixes
counts, with the angle offset `zd['theta'] + 5` to avoid overlap. -/
def sixesSpokes (row : WagonRow) : List Spoke :=
  (build_zone_data row).filterMap (fun zd =>
    if 0 < zd.sixes then
      some { theta := zd.theta + 5, rStart := 0, rEnd := ROPE_RADIUS,
             markerR := ROPE_RADIUS, markerSize := min (8 + zd.sixes * 2) 40,
             hover := "<b>" ++ zd.label ++ "</b><br>Sixes: " ++ toString zd.sixes }
    else none)

/-- The data content of the figure built by `create_wagon_wheel` (the static
rope circle, division lines and styling carry no per-batter data). -/
structure WagonFigure where
  fours : List Spoke
  sixes : List Spoke

/-- Embedding of `create_wagon_wheel(zone_df, batter_name)`: the first row
whose `bat` equals the name is rendered; `none` models the early-return
"no data found" error figure. -/
def create_wagon_wheel (zone_df : List WagonRow) (batter_name : String) : Option WagonFigure :=
  match zone_df.find? (fun r => r.bat == batter_name) with
  | none => none
  | some row => some { fours := foursSpokes row, sixes := sixesSpokes row }

/-! ### Data model for the statistical pipeline

A pandas frame becomes a list of `Row`s.  A cell is `Option ℝ`: `none` is a
missing/NaN value (so `dropna` is `filterMap id` and `pd.isna` is `isNone`).
Row lookup by column name is an association-list lookup over the row's
ordered column list (mirroring a pandas `Series` and its `index`). -/

/-- One batter row: identifier, display name, batting hand, and the ordered
named numeric cells of the row. -/
structure Row where
  batter_id : Int
  bat : String
  batting_hand : String
  data : List (String × Option ℝ)

/-- `batter_data[col]` : the value of the first column named `c` (missing and
absent columns both read as NaN). -/
def Row.cell (r : Row) (c : String) : Option ℝ :=
  match r.data.find? (fun p => p.1 == c) with
  | some p => p.2
  | none => none

/-- A frame is the ordered population of rows (default integer index). -/
abbrev Frame := List Row

/-- One column of the frame, aligned with the row order. -/
def colValues (df : Frame) (c : String) : List (Option ℝ) :=
  df.map (fun r => r.cell c)

/-! ### Outlier detector (`outlier_detector.py`) -/

/-- `LENGTH_COLS` from `outlier_detector.py`. -/
def LENGTH_COLS : List String :=
  ["full", "good_length", "short", "short_of_a_good_length", "yorker", "full_toss"]

/-- `LINE_COLS` from `outlier_detector.py`. -/
def LINE_COLS : List String :=
  ["down_leg", "on_the_stumps", "outside_offstump", "wide_outside_offstump", "wide_down_leg"]

/-- `get_avg_col(dimension, value)`. -/
def get_avg_col (dimension v : String) : String :=
  "avg_runs_per_dismissal_vs_pitch_" ++ dimension ++ "_" ++ v

/-- `get_sr_col(dimension, value)`. -/
def get_sr_col (dimension v : String) : String :=
  "strike_rate_vs_pitch_" ++ dimension ++ "_" ++ v

/-- Mean of the non-missing values (`values.mean()`). -/
noncomputable def sampleMean (values : List ℝ) : ℝ :=
  values.sum / values.length

/-- Sample standard deviation (`values.std()`, pandas default `ddof=1`). -/
noncomputable def sampleStd (values : List ℝ) : ℝ :=
  Real.sqrt ((values.map (fun x => (x - sampleMean values) ^ 2)).sum / ((values.length : ℝ) - 1))

/-- Embedding of `calculate_z_scores(df, column)`: drop NaN; fewer than two
values gives an all-NaN series; zero standard deviation gives an all-zero
series; otherwise `(x - mean) / std` elementwise with NaN preserved. -/
noncomputable def calculate_z_scores (df : Frame) (column : String) : List (Option ℝ) :=
  if ((colValues df column).filterMap id).length < 2 then
    List.replicate df.length none
  else if sampleStd ((colValues df column).filterMap id) = 0 then
    List.replicate df.length (some 0)
  else
    (colValues df column).map (fun v => v.map (fun x =>
      (x - sampleMean ((colValues df column).filterMap id)) /
        sampleStd ((colValues df column).filterMap id)))

/-- Python `s.replace('_', ' ')` for the one-character pattern: a character
map sending underscores to spaces. -/
def underscore_to_space (s : String) : String :=
  String.mk (s.data.map (fun c => if c = '_' then ' ' else c))

/-- One entry of a strengths/weaknesses list: the 4-tuple
`(category name, avg, sr, z-score magnitude)` appended by the detector. -/
structure Entry where
  label : String
  avg : ℝ
  sr : ℝ
  z : ℝ

/-- The outliers dict `{'strengths': [...], 'weaknesses': [...]}`. -/
structure Outliers where
  strengths : List Entry
  weaknesses : List Entry

/-- Descending comparison on the stored z magnitude (`key=lambda x: x[3],
reverse=True`). -/
noncomputable def entryLe (a b : Entry) : Bool :=
  decide (b.z ≤ a.z)

/-- Stable descending sort by z magnitude, as `list.sort(key=..., reverse=True)`. -/
noncomputable def sortEntriesDesc (l : List Entry) : List Entry :=
  l.mergeSort entryLe

/-- One iteration of the detector loop for category `cat` of `dimension`:
skip when the batter's avg or strike rate is missing, compute the population
z-scores of the avg column, and classify the batter by `|z| > threshold`
(`some (true, e)` a strength, `some (false, e)` a weakness, `none` skipped).
The source also computes `sr_z_scores`, which it never reads. -/
noncomputable def outlierEntry (df : Frame) (batterRow : Row) (batterIdx : Nat)
    (threshold : ℝ) (dimension : String) (cat : String) : Option (Bool × Entry) :=
  match batterRow.cell (get_avg_col dimension cat), batterRow.cell (get_sr_col dimension cat) with
  | some avg_val, some sr_val =>
    match (calculate_z_scores df (get_avg_col dimension cat)).getD batterIdx none with
    | some z =>
      if threshold < |z| then
        if 0 < z then
          some (true, { label := underscore_to_space cat, avg := avg_val, sr := sr_val, z := z })
        else
          some (false, { label := underscore_to_space cat, avg := avg_val, sr := sr_val, z := |z| })
      else none
    | none => none
  | _, _ => none

/-- Common body of `detect_length_outliers` and `detect_line_outliers` (the
two sources are identical up to the dimension tag and its column list).
The batter row is the first row with the given id (`iloc[0]` / `index[0]`);
`none` models the `IndexError` the source raises when the id is absent.
The loop appends each classified entry to one of the two lists in column
order, which is the same as filtering the column list for each side. -/
noncomputable def detectOutliers (df : Frame) (batter_id : Int) (threshold : ℝ)
    (dimension : String) (cols : List String) : Option Outliers :=
  match df.find? (fun r => r.batter_id == batter_id) with
  | none => none
  | some batterRow =>
    let batterIdx := df.findIdx (fun r => r.batter_id == batter_id)
    let strengths := cols.filterMap (fun c =>
      match outlierEntry df batterRow batterIdx threshold dimension c with
      | some (true, e) => some e
      | _ => none)
    let weaknesses := cols.filterMap (fun c =>
      match outlierEntry df batterRow batterIdx threshold dimension c with
      | some (false, e) => some e
      | _ => none)
    some { strengths := sortEntriesDesc strengths, weaknesses := sortEntriesDesc weaknesses }

/-- Embedding of `detect_length_outliers(df, batter_id, threshold)`. -/
noncomputable def detect_length_outliers (df : Frame) (batter_id : Int) (threshold : ℝ) : Option Outliers :=
  detectOutliers df batter_id threshold "length" LENGTH_COLS

/-- Embedding of `detect_line_outliers(df, batter_id, threshold)`. -/
noncomputable def detect_line_outliers (df : Frame) (batter_id : Int) (threshold : ℝ) : Option Outliers :=
  detectOutliers df batter_id threshold "line" LINE_COLS

/-- The structural invariants the spec states for an outlier result: no
category label on both sides, every recorded z magnitude above the threshold,
and both lists sorted descending by the recorded magnitude. -/
def outlierInvariants (threshold : ℝ) (r : Outliers) : Prop :=
  (∀ lab : String, ¬(lab ∈ r.strengths.map Entry.label ∧ lab ∈ r.weaknesses.map Entry.label)) ∧
  (∀ e ∈ r.strengths, threshold < e.z) ∧
  (∀ e ∈ r.weaknesses, threshold < e.z) ∧
  List.Pairwise (fun a b => b.z ≤ a.z) r.strengths ∧
  List.Pairwise (fun a b => b.z ≤ a.z) r.weaknesses

/-- The part of `get_all_length_line_stats` consumed by the write-up
generator: the two outlier structures (the raw per-category stat tables it
also returns are never read by the claims below). -/
noncomputable def get_all_length_line_stats (df : Frame) (batter_id : Int) : Option (Outliers × Outliers) :=
  match detect_length_outliers df batter_id (3 / 2), detect_line_outliers df batter_id (3 / 2) with
  | some lo, some li => some (lo, li)
  | _, _ => none

/-! ### Write-up generator (`writeup_generator.py`)

String joins (`sep.join(...)`) are modelled by the structurally recursive
`joinSep`, and the per-character operations of `count_lines`, `count_words`
and substring tests are modelled over `List Char`, so that concrete write-ups
evaluate inside proofs. -/

/-- `sep.join(parts)`. -/
def joinSep (sep : String) : List String → String
  | [] => ""
  | [a] => a
  | a :: b :: rest => a ++ sep ++ joinSep sep (b :: rest)

/-- Models the Python float format `"{x:.0f}"`: render the value rounded to
the nearest integer.  (Python rounds exact halves to even; the claims below
never depend on midpoint values.) -/
noncomputable def fmt0 (x : ℝ) : String :=
  toString (round x)

/-- `format_metric_first_occurrence(avg, sr)`. -/
noncomputable def format_metric_first_occurrence (avg sr : ℝ) : String :=
  fmt0 avg ++ " avg; " ++ fmt0 sr ++ " SR"

/-- `format_metric_subsequent(avg, sr)`. -/
noncomputable def format_metric_subsequent (avg sr : ℝ) : String :=
  "(" ++ fmt0 avg ++ "; " ++ fmt0 sr ++ ")"

/-- The loop shared by the strength and weakness clauses of the Length and
Line insights: for each entry emit `"{label} {metric}"`, where the metric
uses the first-occurrence format when the shared flag is still unset (setting
it), and the subsequent format otherwise.  Returns the parts plus the updated
flag (`first_metric_used` in the source). -/
noncomputable def buildMetricParts : List Entry → Bool → List String × Bool
  | [], flag => ([], flag)
  | e :: rest, flag =>
    let m := if flag then (format_metric_subsequent e.avg e.sr, flag)
             else (format_metric_first_occurrence e.avg e.sr, true)
    let r := buildMetricParts rest m.2
    ((e.label ++ " " ++ m.1) :: r.1, r.2)

/-- The `parts` list of one Length/Line insight: an optional strengths clause
over the two strongest strengths, an optional weaknesses clause over the two
strongest weaknesses, and (when any weakness exists) the advice clause naming
`weaknesses[0]` only.  The source's one-part branches (`"... {parts[0]}"`)
coincide with joining on `" and "`, and both arms of its advice conditional
emit `weaknesses[0]`. -/
noncomputable def insightParts (strongWord weakWord adviceWord : String)
    (o : Outliers) (flag : Bool) : List String × Bool :=
  let s := buildMetricParts (o.strengths.take 2) flag
  let w := buildMetricParts (o.weaknesses.take 2) s.2
  let parts :=
    (if o.strengths.isEmpty then [] else [strongWord ++ joinSep " and " s.1]) ++
    (if o.weaknesses.isEmpty then [] else [weakWord ++ joinSep " and " w.1]) ++
    (match o.weaknesses with
     | [] => []
     | wk :: _ => [adviceWord ++ wk.label])
  (parts, w.2)

/-- The `(length outliers, line outliers)` pair read by the generators out of
the stats dict of `get_all_length_line_stats`. -/
abbrev Stats := Outliers × Outliers

/-- Embedding of `generate_length_insight(stats, first_metric_used)`:
`(none, flag)` models the early `return None` with the flag untouched. -/
noncomputable def generate_length_insight (stats : Stats) (flag : Bool) : Option String × Bool :=
  if stats.1.strengths.isEmpty && stats.1.weaknesses.isEmpty then (none, flag)
  else
    (some ("**Length:** " ++
        joinSep ". " (insightParts "Strong vs " "weak vs " "Target " stats.1 flag).1 ++ "."),
     (insightParts "Strong vs " "weak vs " "Target " stats.1 flag).2)

/-- Embedding of `generate_line_insight(stats, first_metric_used)`. -/
noncomputable def generate_line_insight (stats : Stats) (flag : Bool) : Option String × Bool :=
  if stats.2.strengths.isEmpty && stats.2.weaknesses.isEmpty then (none, flag)
  else
    (some ("**Line:** " ++
        joinSep ". " (insightParts "Excels " "struggles " "Bowl " stats.2 flag).1 ++ "."),
     (insightParts "Excels " "struggles " "Bowl " stats.2 flag).2)

/-- The metric-bearing parts produced across the Length and Line insights of
one write-up, in the order the source prints them (Length strengths, Length
weaknesses, Line strengths, Line weaknesses, two entries each at most), with
the shared flag initialised to `False` as `generate_writeup` does. -/
noncomputable def allMetricParts (stats : Stats) : List String :=
  let r1 := buildMetricParts (stats.1.strengths.take 2) false
  let r2 := buildMetricParts (stats.1.weaknesses.take 2) r1.2
  let r3 := buildMetricParts (stats.2.strengths.take 2) r2.2
  let r4 := buildMetricParts (stats.2.weaknesses.take 2) r3.2
  r1.1 ++ r2.1 ++ r3.1 ++ r4.1

/-- The entries those parts are printed for, in the same order. -/
def lengthLinePairEntries (stats : Stats) : List Entry :=
  stats.1.strengths.take 2 ++ stats.1.weaknesses.take 2 ++
  stats.2.strengths.take 2 ++ stats.2.weaknesses.take 2

/-- A metric part in the compact (subsequent) format. -/
noncomputable def compactPart (e : Entry) : String :=
  e.label ++ " " ++ format_metric_subsequent e.avg e.sr

/-- Restatement of the spec's first-metric rule: the first printed pair is
verbose, every later pair compact. -/
noncomputable def renderFirstVerbose : List Entry → List String
  | [] => []
  | e :: rest =>
    (e.label ++ " " ++ format_metric_first_occurrence e.avg e.sr) :: rest.map compactPart

/-- Substring test (Python `pattern in s`) over characters. -/
def containsSub (pat : List Char) (s : List Char) : Bool :=
  s.tails.any (fun t => pat.isPrefixOf t)

/-- Python `s.replace(pat, rep)` over characters, for a nonempty pattern:
scan left to right, replacing non-overlapping occurrences.  (The source only
ever calls `replace` with nonempty patterns.) -/
def replaceList (pat rep : List Char) : List Char → List Char
  | [] => []
  | c :: rest =>
    if pat ≠ [] ∧ pat.isPrefixOf (c :: rest) then
      rep ++ replaceList pat rep (List.drop pat.length (c :: rest))
    else
      c :: replaceList pat rep rest
termination_by l => l.length
decreasing_by
  · simp only [List.length_drop, List.length_cons]
    have hp : 0 < pat.length := List.length_pos.mpr (by tauto)
    omega
  · simp only [List.length_cons]
    omega

/-- String form of `replaceList`. -/
def pyReplace (s pat rep : String) : String :=
  String.mk (replaceList pat.data rep.data s.data)

/-- Embedding of `get_top_shots(batter_data, bowling_type, top_n)`: collect
the positive, non-missing percentages of the columns whose name contains the
shot-type pattern, name each shot by stripping the pattern and underscores,
sort descending by percentage (stable) and keep the first `top_n`. -/
noncomputable def get_top_shots (batter_data : Row) (bowling_type : String) (top_n : Nat) :
    List (String × ℝ) :=
  ((batter_data.data.filterMap (fun p =>
    if containsSub ("pct_shots_by_shot_type_vs_" ++ bowling_type ++ "_").data p.1.data then
      match p.2 with
      | some pct =>
        if 0 < pct then
          some (underscore_to_space
            (pyReplace p.1 ("pct_shots_by_shot_type_vs_" ++ bowling_type ++ "_") ""), pct)
        else none
      | none => none
    else none)).mergeSort (fun a b => decide (b.2 ≤ a.2))).take top_n

/-- Embedding of `get_top_zones(batter_data, zone_type, batting_hand, top_n)`:
the positive wagon-zone percentages, named through the hand-aware zone
mapper, sorted descending, first `top_n`. -/
noncomputable def get_top_zones (batter_data : Row) (zone_type : String)
    (batting_hand : String) (top_n : Nat) : List (String × ℝ) :=
  ((zoneNums.filterMap (fun z =>
    match batter_data.cell ("pct_" ++ zone_type ++ "_in_wagon_zone_" ++ toString z) with
    | some pct => if 0 < pct then some (get_zone_name z batting_hand, pct) else none
    | none => none)).mergeSort (fun a b => decide (b.2 ≤ a.2))).take top_n

/-- The rendering `"{name} ({pct:.0f}%)"` shared by the shot and zone
clauses. -/
noncomputable def pctItem (sp : String × ℝ) : String :=
  sp.1 ++ " (" ++ fmt0 sp.2 ++ "%)"

/-- The optional pace and spin clauses of the Shots insight. -/
noncomputable def shotParts (batter_data : Row) : List String :=
  (if (get_top_shots batter_data "pace" 2).isEmpty then []
   else ["vs Pace: " ++ joinSep ", " ((get_top_shots batter_data "pace" 2).map pctItem)]) ++
  (if (get_top_shots batter_data "spin" 2).isEmpty then []
   else ["vs Spin: " ++ joinSep ", " ((get_top_shots batter_data "spin" 2).map pctItem)])

/-- Embedding of `generate_shot_insight(batter_data)`. -/
noncomputable def generate_shot_insight (batter_data : Row) : Option String :=
  if (get_top_shots batter_data "pace" 2).isEmpty &&
      (get_top_shots batter_data "spin" 2).isEmpty then none
  else some ("**Shots:** " ++ joinSep "; " (shotParts batter_data) ++ ".")

/-- The rendered zone list of a Boundaries/Dismissals insight. -/
noncomputable def zoneClause (top_zones : List (String × ℝ)) : String :=
  joinSep ", " (top_zones.map pctItem)

/-- The field-setting advice of the Boundaries insight: the top two zone
names (or the single one available). -/
noncomputable def protectAdvice (top_zones : List (String × ℝ)) : String :=
  match top_zones.take 2 with
  | [a, b] => "Protect " ++ a.1 ++ " and " ++ b.1
  | [a] => "Protect " ++ a.1
  | _ => ""

/-- The catcher-placement advice of the Dismissals insight. -/
noncomputable def catchAdvice (top_zones : List (String × ℝ)) : String :=
  match top_zones.take 2 with
  | [a, b] => "Place catchers at " ++ a.1 ++ " and " ++ b.1
  | [a] => "Place catcher at " ++ a.1
  | _ => ""

/-- Embedding of `generate_boundary_insight(batter_data, batting_hand)`. -/
noncomputable def generate_boundary_insight (batter_data : Row) (batting_hand : String) :
    Option String :=
  if (get_top_zones batter_data "boundaries" batting_hand 3).isEmpty then none
  else some ("**Boundaries:** " ++ "Top zones: " ++
    zoneClause (get_top_zones batter_data "boundaries" batting_hand 3) ++ ". " ++
    protectAdvice (get_top_zones batter_data "boundaries" batting_hand 3) ++ ".")

/-- Embedding of `generate_dismissal_insight(batter_data, batting_hand)`. -/
noncomputable def generate_dismissal_insight (batter_data : Row) (batting_hand : String) :
    Option String :=
  if (get_top_zones batter_data "caught_dismissals" batting_hand 3).isEmpty then none
  else some ("**Dismissals:** " ++ "Catch zones: " ++
    zoneClause (get_top_zones batter_data "caught_dismissals" batting_hand 3) ++ ". " ++
    catchAdvice (get_top_zones batter_data "caught_dismissals" batting_hand 3) ++ ".")

/-- The newline character `text.split` and `"\n\n".join` operate on. -/
def newlineChar : Char := Char.ofNat 10

/-- Python `text.split('\n')` over characters. -/
def splitChar (sep : Char) : List Char → List (List Char)
  | [] => [[]]
  | c :: rest =>
    match splitChar sep rest with
    | [] => [[]]
    | h :: t => if c = sep then [] :: h :: t else (c :: h) :: t

/-- Truthiness of `line.strip()`: false exactly when every character is
whitespace. -/
def isBlankLine (l : List Char) : Bool :=
  l.all (fun c => c.isWhitespace)

/-- Embedding of `count_lines(text)`: the number of lines (split on newline)
that are non-blank. -/
def count_lines (text : String) : Nat :=
  ((splitChar newlineChar text.data).filter (fun l => !isBlankLine l)).length

/-- The property that a string contains no newline character. -/
@[reducible]
def noNLs (s : String) : Prop :=
  newlineChar ∉ s.data

/-- Embedding of `count_words(text)`: `len(text.split())`, splitting on
whitespace runs and discarding empty pieces. -/
def count_words (text : String) : Nat :=
  ((text.data.splitOnP (fun c => c.isWhitespace)).filter (fun w => !w.isEmpty)).length

/-- The insight list assembled by `generate_writeup`: the five generators run
in fixed order with the shared first-metric flag threaded through the first
two, and absent generators contribute nothing (`reduceOption`).  In
`generate_writeup` the write-up text joins these with blank-line separators;
`none` there models the exception raised when the batter id is absent. -/
noncomputable def insightList (stats : Stats) (batter_data : Row) : List String :=
  ([(generate_length_insight stats false).1,
    (generate_line_insight stats (generate_length_insight stats false).2).1,
    generate_shot_insight batter_data,
    generate_boundary_insight batter_data batter_data.batting_hand,
    generate_dismissal_insight batter_data batter_data.batting_hand]).reduceOption

/-- Embedding of `generate_writeup(batting_df, batter_data)` proper. -/
noncomputable def generate_writeup (batting_df : Frame) (batter_data : Row) : Option Writeup :=
  match get_all_length_line_stats batting_df batter_data.batter_id with
  | none => none
  | some stats =>
    some { batter_name := batter_data.bat, batting_hand := batter_data.batting_hand,
           writeup := joinSep "\n\n" (insightList stats batter_data),
           insights := insightList stats batter_data,
           word_count := count_words (joinSep "\n\n" (insightList stats batter_data)),
           line_count := count_lines (joinSep "\n\n" (insightList stats batter_data)),
           num_insights := (insightList stats batter_data).length }

/-! ### Concrete fixtures used by witnesses -/

/-- Two-batter population whose only populated column is constant (std 0). -/
noncomputable def rowStd0A : Row :=
  { batter_id := 1, bat := "A", batting_hand := "RHB",
    data := [(get_avg_col "length" "full", some 5), (get_sr_col "length" "full", some 100)] }

/-- Second row of the constant-column population. -/
noncomputable def rowStd0B : Row :=
  { batter_id := 2, bat := "B", batting_hand := "RHB",
    data := [(get_avg_col "length" "full", some 5), (get_sr_col "length" "full", some 100)] }

/-- Population with a constant avg column (two equal non-missing values). -/
noncomputable def dfStd0 : Frame := [rowStd0A, rowStd0B]

/-- One-batter population: every column has fewer than 2 non-missing values. -/
noncomputable def dfSingle : Frame := [rowStd0A]

/-- A batter row with no populated columns at all. -/
def rowEmptyData : Row :=
  { batter_id := 7, bat := "E", batting_hand := "RHB", data := [] }

/-- Population holding only the empty-data batter. -/
def dfEmptyData : Frame := [rowEmptyData]

/-- The spec's wagon-wheel example: zone 1 has 5 fours and 3 sixes, all other
counts zero. -/
def wagonRowTest : WagonRow :=
  { bat := "Test Batter",
    counts := fun c => if c = "fours_wagonZone1" then 5 else if c = "sixes_wagonZone1" then 3 else 0 }

/-- Singleton zone table holding the example batter. -/
def wagonDfTest : List WagonRow := [wagonRowTest]

/-- A weakness entry with magnitude 2. -/
noncomputable def entryShort : Entry := { label := "short", avg := 0, sr := 0, z := 2 }

/-- A weakness entry with magnitude 7/4. -/
noncomputable def entryYorker : Entry := { label := "yorker", avg := 0, sr := 0, z := 7 / 4 }

/-- An outlier result listing two weaknesses and no strength. -/
noncomputable def outTwoWeak : Outliers := { strengths := [], weaknesses := [entryShort, entryYorker] }

/-! ### Theorems -/

/-- Claim C1, counterexample: for the out-of-range zone ids 0 and 9 the zone
mapper does not fail — it silently returns the default labels "Zone 0" and
"Zone 9", contradicting the claim that it fails with an InvalidZone error
rather than silently returning a default label. -/
theorem claim_C1_counterexample :
    get_zone_name 0 "LHB" = "Zone 0" ∧ get_zone_name 9 "RHB" = "Zone 9" := by
  constructor <;> rfl

/-- Claim C1 as amended: for every zone id outside 1..8 and every batting
hand, `get_zone_name` silently returns the fallback label `"Zone {id}"`
(no error of any kind is raised). -/
theorem claim_C1_amended (z : Int) (hand : String) (h : z < 1 ∨ 8 < z) :
    get_zone_name z hand = "Zone " ++ toString z := by
  have h1 : ((1 : Int) == z) = false := beq_eq_false_iff_ne.mpr (by omega)
  have h2 : ((2 : Int) == z) = false := beq_eq_false_iff_ne.mpr (by omega)
  have h3 : ((3 : Int) == z) = false := beq_eq_false_iff_ne.mpr (by omega)
  have h4 : ((4 : Int) == z) = false := beq_eq_false_iff_ne.mpr (by omega)
  have h5 : ((5 : Int) == z) = false := beq_eq_false_iff_ne.mpr (by omega)
  have h6 : ((6 : Int) == z) = false := beq_eq_false_iff_ne.mpr (by omega)
  have h7 : ((7 : Int) == z) = false := beq_eq_false_iff_ne.mpr (by omega)
  have h8 : ((8 : Int) == z) = false := beq_eq_false_iff_ne.mpr (by omega)
  unfold get_zone_name dictGet LHB_ZONES RHB_ZONES
  split <;> simp [List.find?, h1, h2, h3, h4, h5, h6, h7, h8]

/-- Witness for the amended claim C1 at zone id 0 with the left hand. -/
theorem claim_C1_amended_witness :
    ((0 : Int) < 1 ∨ 8 < (0 : Int)) ∧ get_zone_name 0 "LHB" = "Zone " ++ toString (0 : Int) :=
  ⟨Or.inl (by omega), claim_C1_amended 0 "LHB" (Or.inl (by omega))⟩

/-- Claim C2: the hand swap exchanges exactly the mid-on/mid-off pair —
`get_zone_name 4 LHB = get_zone_name 5 RHB`, `get_zone_name 5 LHB =
get_zone_name 4 RHB`, and every other zone id in 1..8 maps to the same label
for both hands. -/
theorem claim_C2 :
    get_zone_name 4 "LHB" = get_zone_name 5 "RHB" ∧
    get_zone_name 5 "LHB" = get_zone_name 4 "RHB" ∧
    ∀ z : Int, 1 ≤ z → z ≤ 8 → z ≠ 4 → z ≠ 5 →
      get_zone_name z "LHB" = get_zone_name z "RHB" := by
  refine ⟨rfl, rfl, ?_⟩
  intro z h1 h2 h4 h5
  have hz : z = 1 ∨ z = 2 ∨ z = 3 ∨ z = 6 ∨ z = 7 ∨ z = 8 := by omega
  rcases hz with rfl | rfl | rfl | rfl | rfl | rfl <;> rfl

/-- Witness for claim C2 at zone 3. -/
theorem claim_C2_witness :
    (1 ≤ (3 : Int) ∧ (3 : Int) ≤ 8 ∧ (3 : Int) ≠ 4 ∧ (3 : Int) ≠ 5) ∧
    get_zone_name 3 "LHB" = get_zone_name 3 "RHB" :=
  ⟨⟨by omega, by omega, by omega, by omega⟩,
   claim_C2.2.2 3 (by omega) (by omega) (by omega) (by omega)⟩

/-- Claim C7: under the default thresholds, validation is invalid (with a
non-empty error list) exactly when the word count exceeds 150, while an
excessive line count and a low insight count each contribute exactly one
warning and never touch validity or the error list. -/
theorem claim_C7 (w : Writeup) :
    ((validate_writeup w 150 10).valid = false ↔ 150 < w.word_count) ∧
    ((validate_writeup w 150 10).errors ≠ [] ↔ 150 < w.word_count) ∧
    (validate_writeup w 150 10).warnings.length =
      ((if 10 < w.line_count then 1 else 0) + (if w.num_insights < 3 then 1 else 0)) := by
  unfold validate_writeup
  by_cases h1 : 150 < w.word_count <;> by_cases h2 : 10 < w.line_count <;>
    by_cases h3 : w.num_insights < 3 <;>
    simp [h1, h2, h3]

/-- Membership in the fours spokes: exactly the zones with a positive fours
count contribute, each with the fixed geometry and clamped marker size. -/
theorem mem_foursSpokes (row : WagonRow) (s : Spoke) :
    s ∈ foursSpokes row ↔ ∃ z ∈ zoneNums,
      0 < row.counts ("fours_wagonZone" ++ toString z) ∧
      s = { theta := wagonZoneTheta z, rStart := 0, rEnd := ROPE_RADIUS,
            markerR := ROPE_RADIUS,
            markerSize := min (8 + row.counts ("fours_wagonZone" ++ toString z) * 2) 40,
            hover := "<b>" ++ wagonZoneLabel z ++ "</b><br>Fours: " ++
              toString (row.counts ("fours_wagonZone" ++ toString z)) } := by
  simp only [foursSpokes, build_zone_data, List.filterMap_map, List.mem_filterMap,
    Function.comp]
  constructor
  · rintro ⟨z, hz, hsome⟩
    by_cases hpos : 0 < row.counts ("fours_wagonZone" ++ toString z)
    · rw [if_pos hpos] at hsome
      exact ⟨z, hz, hpos, (Option.some_inj.mp hsome).symm⟩
    · rw [if_neg hpos] at hsome
      exact absurd hsome (by simp)
  · rintro ⟨z, hz, hpos, rfl⟩
    exact ⟨z, hz, by rw [if_pos hpos]⟩

/-- Membership in the sixes spokes: as for fours, with the angle offset +5. -/
theorem mem_sixesSpokes (row : WagonRow) (s : Spoke) :
    s ∈ sixesSpokes row ↔ ∃ z ∈ zoneNums,
      0 < row.counts ("sixes_wagonZone" ++ toString z) ∧
      s = { theta := wagonZoneTheta z + 5, rStart := 0, rEnd := ROPE_RADIUS,
            markerR := ROPE_RADIUS,
            markerSize := min (8 + row.counts ("sixes_wagonZone" ++ toString z) * 2) 40,
            hover := "<b>" ++ wagonZoneLabel z ++ "</b><br>Sixes: " ++
              toString (row.counts ("sixes_wagonZone" ++ toString z)) } := by
  simp only [sixesSpokes, build_zone_data, List.filterMap_map, List.mem_filterMap,
    Function.comp]
  constructor
  · rintro ⟨z, hz, hsome⟩
    by_cases hpos : 0 < row.counts ("sixes_wagonZone" ++ toString z)
    · rw [if_pos hpos] at hsome
      exact ⟨z, hz, hpos, (Option.some_inj.mp hsome).symm⟩
    · rw [if_neg hpos] at hsome
      exact absurd hsome (by simp)
  · rintro ⟨z, hz, hpos, rfl⟩
    exact ⟨z, hz, by rw [if_pos hpos]⟩

/-- The eight wagon-zone angles are pairwise distinct. -/
theorem wagonZoneTheta_inj :
    ∀ z ∈ zoneNums, ∀ z2 ∈ zoneNums, wagonZoneTheta z2 = wagonZoneTheta z → z2 = z := by
  intro z hz z2 hz2 h
  fin_cases hz <;> fin_cases hz2 <;>
    first
      | rfl
      | (exfalso; simp only [wagonZoneTheta] at h; norm_num at h)

/-- Clamped marker size of an emitted spoke lies in the range 8..40. -/
theorem markerSize_bounds (c : Int) (h : 0 < c) :
    8 ≤ min (8 + c * 2) 40 ∧ min (8 + c * 2) 40 ≤ 40 := by
  rcases le_total (8 + c * 2) 40 with hle | hle
  · rw [min_eq_left hle]
    omega
  · rw [min_eq_right hle]
    omega

/-- Claim C8: in the wagon wheel of a batter found in the table, a fours
(resp. sixes) spoke appears at a zone's angle exactly when the zone's count
is positive; every spoke runs from the centre to the fixed rope radius with
its tip marker on the rope; the sixes spoke of a zone sits at the fours angle
plus the fixed 5-degree offset; and every tip marker has the count-scaled
size `min (8 + 2·count) 40`, which lies within the bounded range 8..40. -/
theorem claim_C8 (zone_df : List WagonRow) (name : String) (row : WagonRow)
    (fig : WagonFigure)
    (hrow : zone_df.find? (fun r => r.bat == name) = some row)
    (hfig : create_wagon_wheel zone_df name = some fig) :
    (∀ z ∈ zoneNums, ((∃ s ∈ fig.fours, s.theta = wagonZoneTheta z) ↔
        0 < row.counts ("fours_wagonZone" ++ toString z))) ∧
    (∀ z ∈ zoneNums, ((∃ s ∈ fig.sixes, s.theta = wagonZoneTheta z + 5) ↔
        0 < row.counts ("sixes_wagonZone" ++ toString z))) ∧
    (∀ s ∈ fig.fours, s.rStart = 0 ∧ s.rEnd = ROPE_RADIUS ∧ s.markerR = ROPE_RADIUS ∧
        8 ≤ s.markerSize ∧ s.markerSize ≤ 40) ∧
    (∀ s ∈ fig.sixes, s.rStart = 0 ∧ s.rEnd = ROPE_RADIUS ∧ s.markerR = ROPE_RADIUS ∧
        8 ≤ s.markerSize ∧ s.markerSize ≤ 40) ∧
    (∀ z ∈ zoneNums, 0 < row.counts ("fours_wagonZone" ++ toString z) →
        ∃ s ∈ fig.fours, s.theta = wagonZoneTheta z ∧
          s.markerSize = min (8 + row.counts ("fours_wagonZone" ++ toString z) * 2) 40) ∧
    (∀ z ∈ zoneNums, 0 < row.counts ("sixes_wagonZone" ++ toString z) →
        ∃ s ∈ fig.sixes, s.theta = wagonZoneTheta z + 5 ∧
          s.markerSize = min (8 + row.counts ("sixes_wagonZone" ++ toString z) * 2) 40) := by
  have hfig2 : fig = { fours := foursSpokes row, sixes := sixesSpokes row } := by
    unfold create_wagon_wheel at hfig
    rw [hrow] at hfig
    exact (Option.some_inj.mp hfig).symm
  subst hfig2
  refine ⟨?_, ?_, ?_, ?_, ?_, ?_⟩
  · intro z hz
    constructor
    · rintro ⟨s, hs, hθ⟩
      obtain ⟨z2, hz2, hpos, rfl⟩ := (mem_foursSpokes row s).mp hs
      have hzz : z2 = z := wagonZoneTheta_inj z hz z2 hz2 hθ
      rwa [hzz] at hpos
    · intro hpos
      exact ⟨_, (mem_foursSpokes row _).mpr ⟨z, hz, hpos, rfl⟩, rfl⟩
  · intro z hz
    constructor
    · rintro ⟨s, hs, hθ⟩
      obtain ⟨z2, hz2, hpos, rfl⟩ := (mem_sixesSpokes row s).mp hs
      have hθ2 : wagonZoneTheta z2 = wagonZoneTheta z := by
        have : wagonZoneTheta z2 + 5 = wagonZoneTheta z + 5 := hθ
        linarith
      have hzz : z2 = z := wagonZoneTheta_inj z hz z2 hz2 hθ2
      rwa [hzz] at hpos
    · intro hpos
      exact ⟨_, (mem_sixesSpokes row _).mpr ⟨z, hz, hpos, rfl⟩, rfl⟩
  · intro s hs
    obtain ⟨z, hz, hpos, rfl⟩ := (mem_foursSpokes row s).mp hs
    obtain ⟨hlo, hhi⟩ := markerSize_bounds _ hpos
    exact ⟨rfl, rfl, rfl, hlo, hhi⟩
  · intro s hs
    obtain ⟨z, hz, hpos, rfl⟩ := (mem_sixesSpokes row s).mp hs
    obtain ⟨hlo, hhi⟩ := markerSize_bounds _ hpos
    exact ⟨rfl, rfl, rfl, hlo, hhi⟩
  · intro z hz hpos
    exact ⟨_, (mem_foursSpokes row _).mpr ⟨z, hz, hpos, rfl⟩, rfl, rfl⟩
  · intro z hz hpos
    exact ⟨_, (mem_sixesSpokes row _).mpr ⟨z, hz, hpos, rfl⟩, rfl, rfl⟩

/-- Witness for claim C8 on the spec's example batter (zone 1: 5 fours and
3 sixes, everything else 0): the batter is found, and the theorem applies. -/
theorem claim_C8_witness :
    create_wagon_wheel wagonDfTest "Test Batter" =
      some { fours := foursSpokes wagonRowTest, sixes := sixesSpokes wagonRowTest } ∧
    (∀ s ∈ foursSpokes wagonRowTest, s.rStart = 0 ∧ s.rEnd = ROPE_RADIUS ∧
        s.markerR = ROPE_RADIUS ∧ 8 ≤ s.markerSize ∧ s.markerSize ≤ 40) ∧
    (∃ s ∈ sixesSpokes wagonRowTest, s.theta = wagonZoneTheta 1 + 5 ∧
        s.markerSize = min (8 + wagonRowTest.counts ("sixes_wagonZone" ++ toString (1 : Int)) * 2) 40) :=
  ⟨rfl,
   (claim_C8 wagonDfTest "Test Batter" wagonRowTest
      { fours := foursSpokes wagonRowTest, sixes := sixesSpokes wagonRowTest } rfl rfl).2.2.1,
   (claim_C8 wagonDfTest "Test Batter" wagonRowTest
      { fours := foursSpokes wagonRowTest, sixes := sixesSpokes wagonRowTest } rfl rfl).2.2.2.2.2
      1 (by decide) (by decide)⟩

/-- With the flag already set, every metric part uses the compact format and
the flag stays set. -/
theorem buildMetricParts_true (es : List Entry) :
    buildMetricParts es true = (es.map compactPart, true) := by
  induction es with
  | nil => rfl
  | cons e rest ih => simp [buildMetricParts, ih, compactPart]

/-- With the flag unset, the first metric part (if any) is verbose, the rest
compact, and the flag comes out set exactly when a part was produced. -/
theorem buildMetricParts_false (es : List Entry) :
    buildMetricParts es false = (renderFirstVerbose es, !es.isEmpty) := by
  cases es with
  | nil => rfl
  | cons e rest =>
    simp [buildMetricParts, renderFirstVerbose, buildMetricParts_true]

/-- Prepending entries shifts the verbose slot to the front of the prefix. -/
theorem renderFirstVerbose_append (xs ys : List Entry) (hx : xs ≠ []) :
    renderFirstVerbose (xs ++ ys) = renderFirstVerbose xs ++ ys.map compactPart := by
  cases xs with
  | nil => exact absurd rfl hx
  | cons e rest => simp [renderFirstVerbose, List.map_append]

/-- Claim C6: across the Length-then-Line, strengths-then-weaknesses order of
one write-up (shared flag initialised to false, as `generate_writeup` does),
the metric parts printed are exactly: the first printed pair in the verbose
"avg; SR" format and every other pair in the compact parenthesised format.
In particular, when at least one pair is printed, exactly one is verbose and
it is the first. -/
theorem claim_C6 (stats : Stats) :
    allMetricParts stats = renderFirstVerbose (lengthLinePairEntries stats) := by
  unfold allMetricParts lengthLinePairEntries
  generalize stats.1.strengths.take 2 = l1
  generalize stats.1.weaknesses.take 2 = l2
  generalize stats.2.strengths.take 2 = l3
  generalize stats.2.weaknesses.take 2 = l4
  rcases l1 with _ | ⟨e1, t1⟩ <;> rcases l2 with _ | ⟨e2, t2⟩ <;>
    rcases l3 with _ | ⟨e3, t3⟩ <;> rcases l4 with _ | ⟨e4, t4⟩ <;>
    simp [buildMetricParts_false, buildMetricParts_true, renderFirstVerbose,
      List.map_append]

/-- The advice clause is always the final part and always names the first
(worst) listed weakness, for any clause wording. -/
theorem insightParts_getLast (sw ww aw : String) (o : Outliers) (flag : Bool)
    (w0 : Entry) (rest : List Entry) (h : o.weaknesses = w0 :: rest) :
    (insightParts sw ww aw o flag).1.getLast? = some (aw ++ w0.label) := by
  unfold insightParts
  rw [h]
  simp [List.getLast?_append, List.getLast?_concat]

/-- Claim C9: whenever a Length (resp. Line) outlier result lists two or more
weaknesses, the advice clause of the generated insight is exactly
`"Target {weaknesses[0]}"` (resp. `"Bowl {weaknesses[0]}"`) — it cites only
the single worst category and never the second listed weakness. -/
theorem claim_C9 (o : Outliers) (flag : Bool) (w0 w1 : Entry) (rest : List Entry)
    (h : o.weaknesses = w0 :: w1 :: rest) :
    (insightParts "Strong vs " "weak vs " "Target " o flag).1.getLast? =
      some ("Target " ++ w0.label) ∧
    (insightParts "Excels " "struggles " "Bowl " o flag).1.getLast? =
      some ("Bowl " ++ w0.label) :=
  ⟨insightParts_getLast _ _ _ o flag w0 _ h, insightParts_getLast _ _ _ o flag w0 _ h⟩

/-- Witness for claim C9 on a result with the two weaknesses "short"
(magnitude 2) and "yorker" (magnitude 7/4): the advice is "Target short". -/
theorem claim_C9_witness :
    outTwoWeak.weaknesses = entryShort :: entryYorker :: [] ∧
    (insightParts "Strong vs " "weak vs " "Target " outTwoWeak false).1.getLast? =
      some ("Target " ++ entryShort.label) ∧
    "Target " ++ entryShort.label = "Target short" :=
  ⟨rfl, (claim_C9 outTwoWeak false entryShort entryYorker [] rfl).1, rfl⟩

/-- The zero-deviation branch of `calculate_z_scores`. -/
theorem z_scores_std_zero (df : Frame) (c : String)
    (h2 : 2 ≤ ((colValues df c).filterMap id).length)
    (h0 : sampleStd ((colValues df c).filterMap id) = 0) :
    calculate_z_scores df c = List.replicate df.length (some 0) := by
  unfold calculate_z_scores
  rw [if_neg (by omega), if_pos h0]

/-- The insufficient-population branch of `calculate_z_scores`. -/
theorem z_scores_insufficient (df : Frame) (c : String)
    (h : ((colValues df c).filterMap id).length < 2) :
    calculate_z_scores df c = List.replicate df.length none := by
  unfold calculate_z_scores
  rw [if_pos h]

/-- Reading any position of an all-missing series yields a missing value. -/
theorem getD_replicate_none (n i : Nat) :
    (List.replicate n (none : Option ℝ)).getD i none = none := by
  rcases lt_or_le i n with h | h
  · simp [List.getD_eq_getElem?_getD, List.getElem?_replicate, h]
  · simp [List.getD_eq_getElem?_getD, List.getElem?_replicate, Nat.not_lt.mpr h]

/-- Reading an in-range position of the all-zero series yields zero. -/
theorem getD_replicate_some_zero {n i : Nat} (h : i < n) :
    (List.replicate n (some (0 : ℝ))).getD i none = some 0 := by
  simp [List.getD_eq_getElem?_getD, List.getElem?_replicate, h]

/-- The index of the batter row found by `find?` is in range. -/
theorem findIdx_lt {df : Frame} {b : Int} {row : Row}
    (h : df.find? (fun r => r.batter_id == b) = some row) :
    df.findIdx (fun r => r.batter_id == b) < df.length := by
  rw [List.findIdx_lt_length]
  have hp := @List.find?_some Row (fun r : Row => r.batter_id == b) row df h
  exact ⟨row, List.mem_of_find?_eq_some h, hp⟩

/-- Every classified entry carries its category's display name, a recorded z
magnitude strictly above the threshold, and stems from a present z-score
whose magnitude beats the threshold. -/
theorem outlierEntry_spec {df : Frame} {row : Row} {idx : Nat} {t : ℝ} {dim c : String}
    {b : Bool} {e : Entry} (h : outlierEntry df row idx t dim c = some (b, e)) :
    e.label = underscore_to_space c ∧ t < e.z ∧
      ∃ z, (calculate_z_scores df (get_avg_col dim c)).getD idx none = some z ∧ t < |z| := by
  unfold outlierEntry at h
  split at h
  · next avg sr heqA heqS =>
    split at h
    · next z hzeq =>
      split at h
      · next ht =>
        split at h
        · next hzp =>
          injection h with h1
          obtain ⟨hb, he⟩ := Prod.mk.injEq .. |>.mp h1
          subst he
          exact ⟨rfl, by rw [abs_of_pos hzp] at ht; exact ht, z, hzeq, ht⟩
        · next hzp =>
          injection h with h1
          obtain ⟨hb, he⟩ := Prod.mk.injEq .. |>.mp h1
          subst he
          exact ⟨rfl, ht, z, hzeq, ht⟩
      · exact absurd h (by simp)
    · exact absurd h (by simp)
  · exact absurd h (by simp)

/-- If the batter's z-score reads as zero, a nonnegative threshold is never
exceeded and the category is skipped. -/
theorem outlierEntry_none_of_z_zero {df : Frame} {row : Row} {idx : Nat} {t : ℝ}
    {dim c : String}
    (hz : (calculate_z_scores df (get_avg_col dim c)).getD idx none = some 0)
    (ht : 0 ≤ t) :
    outlierEntry df row idx t dim c = none := by
  rcases hE : outlierEntry df row idx t dim c with _ | ⟨b, e⟩
  · rfl
  · obtain ⟨-, -, z, hzeq, habs⟩ := outlierEntry_spec hE
    rw [hz] at hzeq
    injection hzeq with h0
    subst h0
    simp only [abs_zero] at habs
    linarith

/-- If the batter's z-score is missing, the category is skipped. -/
theorem outlierEntry_none_of_z_missing {df : Frame} {row : Row} {idx : Nat} {t : ℝ}
    {dim c : String}
    (hz : (calculate_z_scores df (get_avg_col dim c)).getD idx none = none) :
    outlierEntry df row idx t dim c = none := by
  rcases hE : outlierEntry df row idx t dim c with _ | ⟨b, e⟩
  · rfl
  · obtain ⟨-, -, z, hzeq, habs⟩ := outlierEntry_spec hE
    rw [hz] at hzeq
    exact absurd hzeq (by simp)

/-- The strengths filter arm keeps exactly the `(true, e)` classifications. -/
theorem filtArm_true {o : Option (Bool × Entry)} {e : Entry} :
    (match o with
     | some (true, e2) => some e2
     | _ => none) = some e ↔ o = some (true, e) := by
  rcases o with _ | ⟨b, e2⟩
  · simp
  · rcases b with _ | _ <;> simp

/-- The weaknesses filter arm keeps exactly the `(false, e)` classifications. -/
theorem filtArm_false {o : Option (Bool × Entry)} {e : Entry} :
    (match o with
     | some (false, e2) => some e2
     | _ => none) = some e ↔ o = some (false, e) := by
  rcases o with _ | ⟨b, e2⟩
  · simp
  · rcases b with _ | _ <;> simp

/-- Unfolding a successful `detectOutliers` run into its found row and the
two filtered, sorted lists. -/
theorem detectOutliers_eq {df : Frame} {b : Int} {t : ℝ} {dim : String}
    {cols : List String} {r : Outliers}
    (h : detectOutliers df b t dim cols = some r) :
    ∃ row, df.find? (fun r2 => r2.batter_id == b) = some row ∧
      r.strengths = sortEntriesDesc (cols.filterMap (fun c =>
        match outlierEntry df row (df.findIdx (fun r2 => r2.batter_id == b)) t dim c with
        | some (true, e) => some e
        | _ => none)) ∧
      r.weaknesses = sortEntriesDesc (cols.filterMap (fun c =>
        match outlierEntry df row (df.findIdx (fun r2 => r2.batter_id == b)) t dim c with
        | some (false, e) => some e
        | _ => none)) := by
  unfold detectOutliers at h
  split at h
  · exact absurd h (by simp)
  · next row heq =>
    refine ⟨row, heq, ?_, ?_⟩
    · rw [← Option.some_inj.mp h]
    · rw [← Option.some_inj.mp h]

/-- Sorting keeps membership. -/
theorem mem_sortEntriesDesc {e : Entry} {l : List Entry} :
    e ∈ sortEntriesDesc l ↔ e ∈ l := by
  simp [sortEntriesDesc, List.mem_mergeSort]

/-- The descending sort is pairwise descending on the stored magnitude. -/
theorem sortEntriesDesc_sorted (l : List Entry) :
    List.Pairwise (fun a b => b.z ≤ a.z) (sortEntriesDesc l) := by
  have h := @List.sorted_mergeSort Entry entryLe
    (fun a b c hab hbc =>
      decide_eq_true (le_trans (of_decide_eq_true hbc) (of_decide_eq_true hab)))
    (fun a b => by
      rcases le_total b.z a.z with hle | hle
      · simp [entryLe, hle]
      · simp [entryLe, hle])
    l
  exact h.imp (fun hab => of_decide_eq_true hab)

/-- The structural invariants of any successful detector run: a category name
never lands on both sides, every recorded magnitude beats the threshold, and
both lists come out sorted descending. -/
theorem detectOutliers_invariants {df : Frame} {b : Int} {t : ℝ} {dim : String}
    {cols : List String} {r : Outliers}
    (hinj : ∀ c1 ∈ cols, ∀ c2 ∈ cols,
      underscore_to_space c1 = underscore_to_space c2 → c1 = c2)
    (h : detectOutliers df b t dim cols = some r) :
    outlierInvariants t r := by
  obtain ⟨row, hrow, hS, hW⟩ := detectOutliers_eq h
  refine ⟨?_, ?_, ?_, ?_, ?_⟩
  · rintro lab ⟨hls, hlw⟩
    obtain ⟨e1, he1, hlab1⟩ := List.mem_map.mp hls
    obtain ⟨e2, he2, hlab2⟩ := List.mem_map.mp hlw
    rw [hS] at he1
    rw [hW] at he2
    obtain ⟨c1, hc1, hF1⟩ := List.mem_filterMap.mp (mem_sortEntriesDesc.mp he1)
    obtain ⟨c2, hc2, hF2⟩ := List.mem_filterMap.mp (mem_sortEntriesDesc.mp he2)
    have h1 := filtArm_true.mp hF1
    have h2 := filtArm_false.mp hF2
    have hl1 := (outlierEntry_spec h1).1
    have hl2 := (outlierEntry_spec h2).1
    have hcc : c1 = c2 := hinj c1 hc1 c2 hc2 (by rw [← hl1, ← hl2, hlab1, hlab2])
    rw [hcc] at h1
    rw [h1] at h2
    simp at h2
  · intro e he
    rw [hS] at he
    obtain ⟨c1, hc1, hF1⟩ := List.mem_filterMap.mp (mem_sortEntriesDesc.mp he)
    exact (outlierEntry_spec (filtArm_true.mp hF1)).2.1
  · intro e he
    rw [hW] at he
    obtain ⟨c1, hc1, hF1⟩ := List.mem_filterMap.mp (mem_sortEntriesDesc.mp he)
    exact (outlierEntry_spec (filtArm_false.mp hF1)).2.1
  · rw [hS]
    exact sortEntriesDesc_sorted _
  · rw [hW]
    exact sortEntriesDesc_sorted _

/-- The display names of the six length categories are pairwise distinct. -/
theorem LENGTH_COLS_names_inj :
    ∀ c1 ∈ LENGTH_COLS, ∀ c2 ∈ LENGTH_COLS,
      underscore_to_space c1 = underscore_to_space c2 → c1 = c2 := by
  decide

/-- The display names of the five line categories are pairwise distinct. -/
theorem LINE_COLS_names_inj :
    ∀ c1 ∈ LINE_COLS, ∀ c2 ∈ LINE_COLS,
      underscore_to_space c1 = underscore_to_space c2 → c1 = c2 := by
  decide

/-- If one category is skipped by the per-category classifier (for the found
row and its index), its display name reaches neither output list. -/
theorem detect_skip_category {df : Frame} {b : Int} {t : ℝ} {dim : String}
    {cols : List String} {r : Outliers} {cat : String}
    (hinj : ∀ c1 ∈ cols, ∀ c2 ∈ cols,
      underscore_to_space c1 = underscore_to_space c2 → c1 = c2)
    (hcat : cat ∈ cols)
    (h : detectOutliers df b t dim cols = some r)
    (hnone : ∀ row, df.find? (fun r2 => r2.batter_id == b) = some row →
      outlierEntry df row (df.findIdx (fun r2 => r2.batter_id == b)) t dim cat = none) :
    underscore_to_space cat ∉ r.strengths.map Entry.label ∧
    underscore_to_space cat ∉ r.weaknesses.map Entry.label := by
  obtain ⟨row, hrow, hS, hW⟩ := detectOutliers_eq h
  constructor
  · intro hmem
    obtain ⟨e, he, hlab⟩ := List.mem_map.mp hmem
    rw [hS] at he
    obtain ⟨c1, hc1, hF1⟩ := List.mem_filterMap.mp (mem_sortEntriesDesc.mp he)
    have h1 := filtArm_true.mp hF1
    have hl1 := (outlierEntry_spec h1).1
    have hcc : c1 = cat := hinj c1 hc1 cat hcat (by rw [← hl1, hlab])
    rw [hcc, hnone row hrow] at h1
    exact absurd h1 (by simp)
  · intro hmem
    obtain ⟨e, he, hlab⟩ := List.mem_map.mp hmem
    rw [hW] at he
    obtain ⟨c1, hc1, hF1⟩ := List.mem_filterMap.mp (mem_sortEntriesDesc.mp he)
    have h1 := filtArm_false.mp hF1
    have hl1 := (outlierEntry_spec h1).1
    have hcc : c1 = cat := hinj c1 hc1 cat hcat (by rw [← hl1, hlab])
    rw [hcc, hnone row hrow] at h1
    exact absurd h1 (by simp)

/-- Claim C3: when a population column has at least 2 non-missing values and
zero standard deviation, every batter's z-score in that column is exactly 0;
consequently, when the column is the avg column of a length (resp. line)
category, that category's name appears in no batter's strengths or
weaknesses list at the default threshold 1.5. -/
theorem claim_C3 (df : Frame) (c : String)
    (h2 : 2 ≤ ((colValues df c).filterMap id).length)
    (h0 : sampleStd ((colValues df c).filterMap id) = 0) :
    calculate_z_scores df c = List.replicate df.length (some 0) ∧
    (∀ cat ∈ LENGTH_COLS, c = get_avg_col "length" cat → ∀ b r,
      detect_length_outliers df b (3 / 2) = some r →
        underscore_to_space cat ∉ r.strengths.map Entry.label ∧
        underscore_to_space cat ∉ r.weaknesses.map Entry.label) ∧
    (∀ cat ∈ LINE_COLS, c = get_avg_col "line" cat → ∀ b r,
      detect_line_outliers df b (3 / 2) = some r →
        underscore_to_space cat ∉ r.strengths.map Entry.label ∧
        underscore_to_space cat ∉ r.weaknesses.map Entry.label) := by
  refine ⟨z_scores_std_zero df c h2 h0, ?_, ?_⟩
  · intro cat hcat hceq b r hdet
    refine detect_skip_category LENGTH_COLS_names_inj hcat hdet ?_
    intro row hrow
    refine outlierEntry_none_of_z_zero ?_ (by norm_num)
    rw [← hceq, z_scores_std_zero df c h2 h0]
    exact getD_replicate_some_zero (findIdx_lt hrow)
  · intro cat hcat hceq b r hdet
    refine detect_skip_category LINE_COLS_names_inj hcat hdet ?_
    intro row hrow
    refine outlierEntry_none_of_z_zero ?_ (by norm_num)
    rw [← hceq, z_scores_std_zero df c h2 h0]
    exact getD_replicate_some_zero (findIdx_lt hrow)

/-- Claim C4: when a population column has fewer than 2 non-missing values,
every batter's z-score in that column is missing; consequently, when the
column is the avg column of a length (resp. line) category, that category
reaches no batter's strengths or weaknesses list. -/
theorem claim_C4 (df : Frame) (c : String)
    (h : ((colValues df c).filterMap id).length < 2) :
    calculate_z_scores df c = List.replicate df.length none ∧
    (∀ cat ∈ LENGTH_COLS, c = get_avg_col "length" cat → ∀ b r,
      detect_length_outliers df b (3 / 2) = some r →
        underscore_to_space cat ∉ r.strengths.map Entry.label ∧
        underscore_to_space cat ∉ r.weaknesses.map Entry.label) ∧
    (∀ cat ∈ LINE_COLS, c = get_avg_col "line" cat → ∀ b r,
      detect_line_outliers df b (3 / 2) = some r →
        underscore_to_space cat ∉ r.strengths.map Entry.label ∧
        underscore_to_space cat ∉ r.weaknesses.map Entry.label) := by
  refine ⟨z_scores_insufficient df c h, ?_, ?_⟩
  · intro cat hcat hceq b r hdet
    refine detect_skip_category LENGTH_COLS_names_inj hcat hdet ?_
    intro row hrow
    refine outlierEntry_none_of_z_missing ?_
    rw [← hceq, z_scores_insufficient df c h]
    exact getD_replicate_none _ _
  · intro cat hcat hceq b r hdet
    refine detect_skip_category LINE_COLS_names_inj hcat hdet ?_
    intro row hrow
    refine outlierEntry_none_of_z_missing ?_
    rw [← hceq, z_scores_insufficient df c h]
    exact getD_replicate_none _ _

/-- Claim C5: every outlier result produced by the length (resp. line)
detector at the default threshold 1.5 satisfies the structural invariants:
no category label on both sides, every recorded z magnitude above 1.5, and
both lists sorted descending by recorded magnitude. -/
theorem claim_C5 (df : Frame) (b : Int) (r1 r2 : Outliers)
    (h1 : detect_length_outliers df b (3 / 2) = some r1)
    (h2 : detect_line_outliers df b (3 / 2) = some r2) :
    outlierInvariants (3 / 2) r1 ∧ outlierInvariants (3 / 2) r2 :=
  ⟨detectOutliers_invariants LENGTH_COLS_names_inj h1,
   detectOutliers_invariants LINE_COLS_names_inj h2⟩

/-- The empty-data batter is classified against no category at all. -/
theorem outlierEntry_emptyRow (t : ℝ) (dim c : String) (idx : Nat) :
    outlierEntry dfEmptyData rowEmptyData idx t dim c = none :=
  rfl

/-- Evaluating the length detector on the empty-data population. -/
theorem detect_length_emptyData :
    detect_length_outliers dfEmptyData 7 (3 / 2) = some { strengths := [], weaknesses := [] } := by
  unfold detect_length_outliers detectOutliers
  rw [show List.find? (fun r2 => r2.batter_id == 7) dfEmptyData = some rowEmptyData from rfl]
  simp [LENGTH_COLS, outlierEntry_emptyRow, sortEntriesDesc, List.mergeSort_nil]

/-- Evaluating the line detector on the empty-data population. -/
theorem detect_line_emptyData :
    detect_line_outliers dfEmptyData 7 (3 / 2) = some { strengths := [], weaknesses := [] } := by
  unfold detect_line_outliers detectOutliers
  rw [show List.find? (fun r2 => r2.batter_id == 7) dfEmptyData = some rowEmptyData from rfl]
  simp [LINE_COLS, outlierEntry_emptyRow, sortEntriesDesc, List.mergeSort_nil]

/-- Witness for claim C5: a concrete batter whose detector runs succeed, with
the invariants holding of the produced results. -/
theorem claim_C5_witness :
    detect_length_outliers dfEmptyData 7 (3 / 2) = some { strengths := [], weaknesses := [] } ∧
    detect_line_outliers dfEmptyData 7 (3 / 2) = some { strengths := [], weaknesses := [] } ∧
    outlierInvariants (3 / 2) { strengths := [], weaknesses := [] } :=
  ⟨detect_length_emptyData, detect_line_emptyData,
   (claim_C5 dfEmptyData 7 { strengths := [], weaknesses := [] }
     { strengths := [], weaknesses := [] } detect_length_emptyData detect_line_emptyData).1⟩

/-- Witness for claim C3 on the two-batter population whose "full" avg column
is constant at 5: the column has 2 non-missing values, standard deviation 0,
all z-scores are 0, the detector succeeds, and "full" is in no output list. -/
theorem claim_C3_witness :
    2 ≤ ((colValues dfStd0 (get_avg_col "length" "full")).filterMap id).length ∧
    sampleStd ((colValues dfStd0 (get_avg_col "length" "full")).filterMap id) = 0 ∧
    calculate_z_scores dfStd0 (get_avg_col "length" "full") = List.replicate 2 (some 0) ∧
    detect_length_outliers dfStd0 1 (3 / 2) = some { strengths := [], weaknesses := [] } ∧
    underscore_to_space "full" ∉
      ({ strengths := [], weaknesses := [] } : Outliers).strengths.map Entry.label := by
  have hv : (colValues dfStd0 (get_avg_col "length" "full")).filterMap id = [(5 : ℝ), 5] := rfl
  have h2 : 2 ≤ ((colValues dfStd0 (get_avg_col "length" "full")).filterMap id).length := by
    rw [hv]
    norm_num
  have h0 : sampleStd ((colValues dfStd0 (get_avg_col "length" "full")).filterMap id) = 0 := by
    rw [hv]
    unfold sampleStd sampleMean
    simp
  have hz : calculate_z_scores dfStd0 (get_avg_col "length" "full") =
      List.replicate 2 (some 0) := z_scores_std_zero dfStd0 _ h2 h0
  have hfull : outlierEntry dfStd0 rowStd0A 0 (3 / 2) "length" "full" = none := by
    refine outlierEntry_none_of_z_zero ?_ (by norm_num)
    rw [hz]
    rfl
  have hg : outlierEntry dfStd0 rowStd0A 0 (3 / 2) "length" "good_length" = none := rfl
  have hs : outlierEntry dfStd0 rowStd0A 0 (3 / 2) "length" "short" = none := rfl
  have hsg : outlierEntry dfStd0 rowStd0A 0 (3 / 2) "length" "short_of_a_good_length" = none := rfl
  have hy : outlierEntry dfStd0 rowStd0A 0 (3 / 2) "length" "yorker" = none := rfl
  have hft : outlierEntry dfStd0 rowStd0A 0 (3 / 2) "length" "full_toss" = none := rfl
  have hdet : detect_length_outliers dfStd0 1 (3 / 2) = some { strengths := [], weaknesses := [] } := by
    unfold detect_length_outliers detectOutliers
    rw [show List.find? (fun r2 => r2.batter_id == 1) dfStd0 = some rowStd0A from rfl]
    simp [LENGTH_COLS, show (dfStd0.findIdx fun r2 => r2.batter_id == 1) = 0 from rfl,
      hfull, hg, hs, hsg, hy, hft, sortEntriesDesc, List.mergeSort_nil]
  have happ := claim_C3 dfStd0 (get_avg_col "length" "full") h2 h0
  exact ⟨h2, h0, happ.1, hdet,
    (happ.2.1 "full" (by simp [LENGTH_COLS]) rfl 1
      { strengths := [], weaknesses := [] } hdet).1⟩

/-- Witness for claim C4 on the one-batter population: the "full" avg column
has a single non-missing value, all z-scores are missing, the detector
succeeds, and "full" is in no output list. -/
theorem claim_C4_witness :
    ((colValues dfSingle (get_avg_col "length" "full")).filterMap id).length < 2 ∧
    calculate_z_scores dfSingle (get_avg_col "length" "full") = List.replicate 1 none ∧
    detect_length_outliers dfSingle 1 (3 / 2) = some { strengths := [], weaknesses := [] } ∧
    underscore_to_space "full" ∉
      ({ strengths := [], weaknesses := [] } : Outliers).weaknesses.map Entry.label := by
  have hv : (colValues dfSingle (get_avg_col "length" "full")).filterMap id = [(5 : ℝ)] := rfl
  have hlt : ((colValues dfSingle (get_avg_col "length" "full")).filterMap id).length < 2 := by
    rw [hv]
    norm_num
  have hz : calculate_z_scores dfSingle (get_avg_col "length" "full") =
      List.replicate 1 none := z_scores_insufficient dfSingle _ hlt
  have hfull : outlierEntry dfSingle rowStd0A 0 (3 / 2) "length" "full" = none := by
    refine outlierEntry_none_of_z_missing ?_
    rw [hz]
    rfl
  have hg : outlierEntry dfSingle rowStd0A 0 (3 / 2) "length" "good_length" = none := rfl
  have hs : outlierEntry dfSingle rowStd0A 0 (3 / 2) "length" "short" = none := rfl
  have hsg : outlierEntry dfSingle rowStd0A 0 (3 / 2) "length" "short_of_a_good_length" = none := rfl
  have hy : outlierEntry dfSingle rowStd0A 0 (3 / 2) "length" "yorker" = none := rfl
  have hft : outlierEntry dfSingle rowStd0A 0 (3 / 2) "length" "full_toss" = none := rfl
  have hdet : detect_length_outliers dfSingle 1 (3 / 2) = some { strengths := [], weaknesses := [] } := by
    unfold detect_length_outliers detectOutliers
    rw [show List.find? (fun r2 => r2.batter_id == 1) dfSingle = some rowStd0A from rfl]
    simp [LENGTH_COLS, show (dfSingle.findIdx fun r2 => r2.batter_id == 1) = 0 from rfl,
      hfull, hg, hs, hsg, hy, hft, sortEntriesDesc, List.mergeSort_nil]
  have happ := claim_C4 dfSingle (get_avg_col "length" "full") hlt
  exact ⟨hlt, happ.1, hdet,
    (happ.2.1 "full" (by simp [LENGTH_COLS]) rfl 1
      { strengths := [], weaknesses := [] } hdet).2⟩

/-- Digit characters are never the newline character. -/
theorem digitChar_ne_newline (m : Nat) : Nat.digitChar m ≠ newlineChar := by
  rw [show newlineChar = Char.ofNat 10 from rfl]
  rcases Nat.lt_or_ge m 16 with h | h
  · interval_cases m <;> decide
  · have h2 : Nat.digitChar m = Char.ofNat 42 := by
      unfold Nat.digitChar
      repeat rw [if_neg (by omega)]
    rw [h2]
    decide

/-- Characters produced by `Nat.toDigitsCore` come from the accumulator or
are digit characters. -/
theorem toDigitsCore_chars (b : Nat) : ∀ (fuel n : Nat) (acc : List Char)
    (ch : Char), ch ∈ Nat.toDigitsCore b fuel n acc →
      ch ∈ acc ∨ ∃ m, ch = Nat.digitChar m := by
  intro fuel
  induction fuel with
  | zero =>
    intro n acc ch hch
    rw [show Nat.toDigitsCore b 0 n acc = acc from by unfold Nat.toDigitsCore; rfl] at hch
    exact Or.inl hch
  | succ f ih =>
    intro n acc ch hch
    rw [show Nat.toDigitsCore b (f + 1) n acc =
        (if n / b = 0 then (n % b).digitChar :: acc
         else Nat.toDigitsCore b f (n / b) ((n % b).digitChar :: acc)) from by
      conv_lhs => unfold Nat.toDigitsCore] at hch
    by_cases h : n / b = 0
    · rw [if_pos h] at hch
      rcases List.mem_cons.mp hch with h1 | h1
      · exact Or.inr ⟨n % b, h1⟩
      · exact Or.inl h1
    · rw [if_neg h] at hch
      rcases ih (n / b) ((n % b).digitChar :: acc) ch hch with h1 | h1
      · rcases List.mem_cons.mp h1 with h2 | h2
        · exact Or.inr ⟨n % b, h2⟩
        · exact Or.inl h2
      · exact Or.inr h1

/-- Decimal renderings of naturals contain no newline. -/
theorem noNL_natRepr (n : Nat) : newlineChar ∉ (Nat.repr n).data := by
  intro h
  have h2 : newlineChar ∈ Nat.toDigitsCore 10 (n + 1) n [] := h
  rcases toDigitsCore_chars 10 (n + 1) n [] _ h2 with h3 | ⟨m, h3⟩
  · exact absurd h3 (List.not_mem_nil _)
  · exact digitChar_ne_newline m h3.symm

/-- Decimal renderings of integers contain no newline. -/
theorem noNL_intRepr (n : Int) : newlineChar ∉ (Int.repr n).data := by
  cases n with
  | ofNat m => exact noNL_natRepr m
  | negSucc m =>
    intro h
    rw [show Int.repr (Int.negSucc m) = "-" ++ Nat.repr (m + 1) from rfl,
      String.data_append] at h
    rcases List.mem_append.mp h with h1 | h1
    · exact absurd h1 (by decide)
    · exact noNL_natRepr _ h1

/-- Rounded metric renderings contain no newline. -/
theorem noNL_fmt0 (x : ℝ) : noNLs (fmt0 x) :=
  noNL_intRepr (round x)

/-- Concatenation preserves newline-freedom. -/
theorem noNLs_append {a b : String} (ha : noNLs a) (hb : noNLs b) : noNLs (a ++ b) := by
  intro h
  rw [String.data_append] at h
  rcases List.mem_append.mp h with h1 | h1
  · exact ha h1
  · exact hb h1

/-- Joining newline-free parts with a newline-free separator stays
newline-free. -/
theorem noNLs_joinSep {sep : String} {l : List String} (hsep : noNLs sep)
    (hl : ∀ x ∈ l, noNLs x) : noNLs (joinSep sep l) := by
  induction l with
  | nil =>
    intro h
    rw [show joinSep sep [] = "" from rfl] at h
    exact absurd h (by decide)
  | cons a rest ih =>
    cases rest with
    | nil => exact hl a (by simp)
    | cons b rest2 =>
      exact noNLs_append (noNLs_append (hl a (by simp)) hsep)
        (ih (fun x hx => hl x (List.mem_cons_of_mem a hx)))

/-- A line holding one non-whitespace character is not blank. -/
theorem isBlankLine_false_of_mem {l : List Char} (ch : Char) (hch : ch ∈ l)
    (hw : ch.isWhitespace = false) : isBlankLine l = false := by
  rcases hb : isBlankLine l with _ | _
  · rfl
  · have := List.all_eq_true.mp hb ch hch
    rw [hw] at this
    exact absurd this (by decide)

/-- `splitChar` never returns the empty list of pieces. -/
theorem splitChar_ne_nil (sep : Char) (l : List Char) : splitChar sep l ≠ [] := by
  cases l with
  | nil => simp [splitChar]
  | cons c rest =>
    unfold splitChar
    split
    · simp
    · split <;> simp

/-- Splitting at a leading separator emits an empty piece. -/
theorem splitChar_cons_sep (sep : Char) (ys : List Char) :
    splitChar sep (sep :: ys) = [] :: splitChar sep ys := by
  conv_lhs => unfold splitChar
  rcases h : splitChar sep ys with _ | ⟨hd, tl⟩
  · exact absurd h (splitChar_ne_nil sep ys)
  · simp

/-- A separator-free prefix becomes the first piece. -/
theorem splitChar_append_sep {sep : Char} {xs : List Char} (ys : List Char)
    (h : sep ∉ xs) :
    splitChar sep (xs ++ sep :: ys) = xs :: splitChar sep ys := by
  induction xs with
  | nil => simpa using splitChar_cons_sep sep ys
  | cons c rest ih =>
    have hc : ¬(c = sep) := fun he => h (he ▸ List.mem_cons_self c rest)
    have hrest : sep ∉ rest := fun hm => h (List.mem_cons_of_mem c hm)
    show splitChar sep (c :: (rest ++ sep :: ys)) = (c :: rest) :: splitChar sep ys
    conv_lhs => unfold splitChar
    rw [ih hrest]
    simp [hc]

/-- A separator-free text is a single piece. -/
theorem splitChar_no_sep {sep : Char} {xs : List Char} (h : sep ∉ xs) :
    splitChar sep xs = [xs] := by
  induction xs with
  | nil => rfl
  | cons c rest ih =>
    have hc : ¬(c = sep) := fun he => h (he ▸ List.mem_cons_self c rest)
    have hrest : sep ∉ rest := fun hm => h (List.mem_cons_of_mem c hm)
    conv_lhs => unfold splitChar
    rw [ih hrest]
    simp [hc]

/-- Joining newline-free, non-blank insight strings with blank-line
separators yields exactly one non-blank line per insight. -/
theorem count_lines_joinSep (l : List String)
    (hnl : ∀ i ∈ l, noNLs i)
    (hnb : ∀ i ∈ l, isBlankLine i.data = false) :
    count_lines (joinSep "\n\n" l) = l.length := by
  induction l with
  | nil => rfl
  | cons i rest ih =>
    cases rest with
    | nil =>
      show count_lines i = 1
      unfold count_lines
      rw [splitChar_no_sep (hnl i (by simp))]
      simp [hnb i (by simp)]
    | cons j rest2 =>
      have hdata : (joinSep "\n\n" (i :: j :: rest2)).data =
          i.data ++ newlineChar :: newlineChar :: (joinSep "\n\n" (j :: rest2)).data := by
        show (i ++ "\n\n" ++ joinSep "\n\n" (j :: rest2)).data = _
        rw [String.data_append, String.data_append,
          show ("\n\n" : String).data = [newlineChar, newlineChar] from rfl]
        simp
      unfold count_lines
      rw [hdata, splitChar_append_sep _ (hnl i (by simp)), splitChar_cons_sep]
      have ih2 := ih (fun x hx => hnl x (List.mem_cons_of_mem i hx))
        (fun x hx => hnb x (List.mem_cons_of_mem i hx))
      unfold count_lines at ih2
      have hkeep : (!isBlankLine i.data) = true := by
        rw [hnb i (List.mem_cons_self i _)]
        rfl
      have hdrop : (!isBlankLine ([] : List Char)) = false := rfl
      rw [List.filter_cons, if_pos hkeep, List.filter_cons, if_neg (by simp [hdrop]),
        List.length_cons, ih2]
      simp

/-- Characters of a replacement result come from the text or the
replacement. -/
theorem mem_replaceList (pat rep : List Char) :
    ∀ (l : List Char) (ch : Char), ch ∈ replaceList pat rep l → ch ∈ l ∨ ch ∈ rep := by
  have H : ∀ (n : Nat) (l : List Char), l.length ≤ n →
      ∀ ch, ch ∈ replaceList pat rep l → ch ∈ l ∨ ch ∈ rep := by
    intro n
    induction n with
    | zero =>
      intro l hl ch hch
      cases l with
      | nil => simp [replaceList] at hch
      | cons c rest => simp at hl
    | succ n ih =>
      intro l hl ch hch
      cases l with
      | nil => simp [replaceList] at hch
      | cons c rest =>
        unfold replaceList at hch
        split at hch
        · next hcond =>
          rcases List.mem_append.mp hch with h1 | h1
          · exact Or.inr h1
          · have hlen : (List.drop pat.length (c :: rest)).length ≤ n := by
              have hp : 0 < pat.length := List.length_pos.mpr hcond.1
              simp only [List.length_drop, List.length_cons]
              simp only [List.length_cons] at hl
              omega
            rcases ih _ hlen ch h1 with h2 | h2
            · exact Or.inl (List.mem_of_mem_drop h2)
            · exact Or.inr h2
        · next hcond =>
          rcases List.mem_cons.mp hch with h1 | h1
          · subst h1
            exact Or.inl (List.mem_cons_self _ _)
          · have hr : rest.length ≤ n := by
              simp only [List.length_cons] at hl
              omega
            rcases ih rest hr ch h1 with h2 | h2
            · exact Or.inl (List.mem_cons_of_mem c h2)
            · exact Or.inr h2
  exact fun l ch h => H l.length l le_rfl ch h

/-- Replacing underscores by spaces preserves newline-freedom. -/
theorem noNLs_u2s {s : String} (h : noNLs s) : noNLs (underscore_to_space s) := by
  intro hch
  obtain ⟨c, hc, hcf⟩ := List.mem_map.mp hch
  by_cases hu : c = '_'
  · rw [if_pos hu] at hcf
    exact absurd hcf (by decide)
  · rw [if_neg hu] at hcf
    exact h (hcf ▸ hc)

/-- Deleting a pattern preserves newline-freedom. -/
theorem noNLs_pyReplace_drop {s : String} (pat : String) (h : noNLs s) :
    noNLs (pyReplace s pat "") := by
  intro hch
  rcases mem_replaceList pat.data ("" : String).data s.data newlineChar hch with h1 | h1
  · exact h h1
  · exact absurd h1 (by decide)

/-- Every hand-aware zone name of zones 1..8 is newline-free. -/
theorem noNL_zone_name : ∀ z ∈ zoneNums, ∀ hand : String, noNLs (get_zone_name z hand) := by
  intro z hz hand
  unfold noNLs get_zone_name
  fin_cases hz <;> (split <;> decide)

/-- The length category display names are newline-free. -/
theorem noNL_LENGTH_names : ∀ c ∈ LENGTH_COLS, noNLs (underscore_to_space c) := by
  intro c hc
  unfold noNLs
  fin_cases hc <;> decide

/-- The line category display names are newline-free. -/
theorem noNL_LINE_names : ∀ c ∈ LINE_COLS, noNLs (underscore_to_space c) := by
  intro c hc
  unfold noNLs
  fin_cases hc <;> decide

/-- Every selected shot is named from one of the row's columns. -/
theorem mem_get_top_shots {bd : Row} {bt : String} {n : Nat} {sp : String × ℝ}
    (h : sp ∈ get_top_shots bd bt n) :
    ∃ p ∈ bd.data, sp.1 = underscore_to_space
      (pyReplace p.1 ("pct_shots_by_shot_type_vs_" ++ bt ++ "_") "") := by
  unfold get_top_shots at h
  have h2 := List.mem_of_mem_take h
  rw [List.mem_mergeSort] at h2
  obtain ⟨p, hp, hF⟩ := List.mem_filterMap.mp h2
  refine ⟨p, hp, ?_⟩
  split at hF
  · split at hF
    · next pct heq =>
      split at hF
      · injection hF with h1
        rw [← h1]
      · exact absurd hF (by simp)
    · exact absurd hF (by simp)
  · exact absurd hF (by simp)

/-- Every selected wagon zone is named through the zone mapper. -/
theorem mem_get_top_zones {bd : Row} {zt hand : String} {n : Nat} {sp : String × ℝ}
    (h : sp ∈ get_top_zones bd zt hand n) :
    ∃ z ∈ zoneNums, sp.1 = get_zone_name z hand := by
  unfold get_top_zones at h
  have h2 := List.mem_of_mem_take h
  rw [List.mem_mergeSort] at h2
  obtain ⟨z, hz, hF⟩ := List.mem_filterMap.mp h2
  refine ⟨z, hz, ?_⟩
  split at hF
  · next pct heq =>
    split at hF
    · injection hF with h1
      rw [← h1]
    · exact absurd hF (by simp)
  · exact absurd hF (by simp)

/-- The verbose metric format is newline-free. -/
theorem noNL_format_first (avg sr : ℝ) : noNLs (format_metric_first_occurrence avg sr) := by
  unfold format_metric_first_occurrence
  exact noNLs_append (noNLs_append (noNLs_append (noNL_fmt0 avg) (by decide))
    (noNL_fmt0 sr)) (by decide)

/-- The compact metric format is newline-free. -/
theorem noNL_format_sub (avg sr : ℝ) : noNLs (format_metric_subsequent avg sr) := by
  unfold format_metric_subsequent
  exact noNLs_append (noNLs_append (noNLs_append (noNLs_append (by decide)
    (noNL_fmt0 avg)) (by decide)) (noNL_fmt0 sr)) (by decide)

/-- Metric parts built from newline-free labels are newline-free. -/
theorem noNL_buildMetricParts : ∀ (es : List Entry) (flag : Bool),
    (∀ e ∈ es, noNLs e.label) → ∀ p ∈ (buildMetricParts es flag).1, noNLs p := by
  intro es
  induction es with
  | nil =>
    intro flag h p hp
    simp [buildMetricParts] at hp
  | cons e rest ih =>
    intro flag h p hp
    simp only [buildMetricParts] at hp
    rcases List.mem_cons.mp hp with rfl | hp2
    · refine noNLs_append (noNLs_append (h e (by simp)) (by decide)) ?_
      rcases flag with _ | _
      · simpa using noNL_format_first e.avg e.sr
      · simpa using noNL_format_sub e.avg e.sr
    · exact ih _ (fun e2 he2 => h e2 (List.mem_cons_of_mem _ he2)) p hp2

/-- All parts of a Length/Line insight are newline-free when the clause
wordings and the entry labels are. -/
theorem noNL_insightParts {sw ww aw : String} (o : Outliers) (flag : Bool)
    (hsw : noNLs sw) (hww : noNLs ww) (haw : noNLs aw)
    (hlab : ∀ e ∈ o.strengths ++ o.weaknesses, noNLs e.label) :
    ∀ p ∈ (insightParts sw ww aw o flag).1, noNLs p := by
  intro p hp
  have hstr : ∀ e ∈ o.strengths.take 2, noNLs e.label := fun e he =>
    hlab e (List.mem_append.mpr (Or.inl (List.mem_of_mem_take he)))
  have hwk2 : ∀ e ∈ o.weaknesses.take 2, noNLs e.label := fun e he =>
    hlab e (List.mem_append.mpr (Or.inr (List.mem_of_mem_take he)))
  have hsc : noNLs (sw ++ joinSep " and "
      (buildMetricParts (o.strengths.take 2) flag).1) :=
    noNLs_append hsw (noNLs_joinSep (by decide) (noNL_buildMetricParts _ _ hstr))
  have hwc : noNLs (ww ++ joinSep " and "
      (buildMetricParts (o.weaknesses.take 2)
        (buildMetricParts (o.strengths.take 2) flag).2).1) :=
    noNLs_append hww (noNLs_joinSep (by decide) (noNL_buildMetricParts _ _ hwk2))
  rcases hwk : o.weaknesses with _ | ⟨wk, rest2⟩
  · by_cases h1 : o.strengths.isEmpty
    · simp [insightParts, hwk, h1] at hp
    · simp only [insightParts, hwk, h1, List.isEmpty_nil, if_true, if_false,
        Bool.false_eq_true, List.append_nil, List.nil_append, List.mem_singleton] at hp
      subst hp
      exact hsc
  · rw [hwk] at hwc
    have hadv : noNLs (aw ++ wk.label) :=
      noNLs_append haw (hlab wk (List.mem_append.mpr
        (Or.inr (hwk ▸ List.mem_cons_self wk rest2))))
    by_cases h1 : o.strengths.isEmpty
    · simp only [insightParts, hwk, h1, List.isEmpty_cons, if_true, if_false,
        Bool.false_eq_true, List.append_nil, List.nil_append, List.mem_append,
        List.mem_singleton, or_assoc] at hp
      rcases hp with rfl | rfl
      · exact hwc
      · exact hadv
    · simp only [insightParts, hwk, h1, List.isEmpty_cons, if_true, if_false,
        Bool.false_eq_true, List.append_nil, List.nil_append, List.mem_append,
        List.mem_singleton, or_assoc] at hp
      rcases hp with rfl | rfl | rfl
      · exact hsc
      · exact hwc
      · exact hadv

/-- Every label in a detector result is a category display name. -/
theorem detect_labels {df : Frame} {b : Int} {t : ℝ} {dim : String}
    {cols : List String} {r : Outliers}
    (h : detectOutliers df b t dim cols = some r) :
    ∀ e ∈ r.strengths ++ r.weaknesses, ∃ c ∈ cols, e.label = underscore_to_space c := by
  obtain ⟨row, hrow, hS, hW⟩ := detectOutliers_eq h
  intro e he
  rcases List.mem_append.mp he with h1 | h1
  · rw [hS] at h1
    obtain ⟨c, hc, hF⟩ := List.mem_filterMap.mp (mem_sortEntriesDesc.mp h1)
    exact ⟨c, hc, (outlierEntry_spec (filtArm_true.mp hF)).1⟩
  · rw [hW] at h1
    obtain ⟨c, hc, hF⟩ := List.mem_filterMap.mp (mem_sortEntriesDesc.mp h1)
    exact ⟨c, hc, (outlierEntry_spec (filtArm_false.mp hF)).1⟩

/-- The labels of the stats consumed by a write-up are newline-free. -/
theorem stats_labels {df : Frame} {b : Int} {stats : Stats}
    (h : get_all_length_line_stats df b = some stats) :
    (∀ e ∈ stats.1.strengths ++ stats.1.weaknesses, noNLs e.label) ∧
    (∀ e ∈ stats.2.strengths ++ stats.2.weaknesses, noNLs e.label) := by
  unfold get_all_length_line_stats at h
  split at h
  · next lo li heqL heqLi =>
    have hst : stats = (lo, li) := (Option.some_inj.mp h).symm
    subst hst
    constructor
    · intro e he
      obtain ⟨c, hc, hlabel⟩ := detect_labels heqL e he
      rw [hlabel]
      exact noNL_LENGTH_names c hc
    · intro e he
      obtain ⟨c, hc, hlabel⟩ := detect_labels heqLi e he
      rw [hlabel]
      exact noNL_LINE_names c hc
  · exact absurd h (by simp)

/-- The Length insight, when generated, is newline-free and non-blank. -/
theorem length_insight_ok {stats : Stats} {flag : Bool} {s : String}
    (h : (generate_length_insight stats flag).1 = some s)
    (hlab : ∀ e ∈ stats.1.strengths ++ stats.1.weaknesses, noNLs e.label) :
    noNLs s ∧ isBlankLine s.data = false := by
  unfold generate_length_insight at h
  split at h
  · exact absurd h (by simp)
  · have h1 : ("**Length:** " ++
        joinSep ". " (insightParts "Strong vs " "weak vs " "Target " stats.1 flag).1 ++ ".") = s :=
      Option.some_inj.mp h
    subst h1
    constructor
    · exact noNLs_append (noNLs_append (by decide) (noNLs_joinSep (by decide)
        (noNL_insightParts _ _ (by decide) (by decide) (by decide) hlab))) (by decide)
    · refine isBlankLine_false_of_mem (Char.ofNat 42) ?_ (by decide)
      rw [String.data_append, String.data_append]
      exact List.mem_append_left _ (List.mem_append_left _ (by decide))

/-- The Line insight, when generated, is newline-free and non-blank. -/
theorem line_insight_ok {stats : Stats} {flag : Bool} {s : String}
    (h : (generate_line_insight stats flag).1 = some s)
    (hlab : ∀ e ∈ stats.2.strengths ++ stats.2.weaknesses, noNLs e.label) :
    noNLs s ∧ isBlankLine s.data = false := by
  unfold generate_line_insight at h
  split at h
  · exact absurd h (by simp)
  · have h1 : ("**Line:** " ++
        joinSep ". " (insightParts "Excels " "struggles " "Bowl " stats.2 flag).1 ++ ".") = s :=
      Option.some_inj.mp h
    subst h1
    constructor
    · exact noNLs_append (noNLs_append (by decide) (noNLs_joinSep (by decide)
        (noNL_insightParts _ _ (by decide) (by decide) (by decide) hlab))) (by decide)
    · refine isBlankLine_false_of_mem (Char.ofNat 42) ?_ (by decide)
      rw [String.data_append, String.data_append]
      exact List.mem_append_left _ (List.mem_append_left _ (by decide))

/-- Rendered shot items of a row with newline-free column names are
newline-free. -/
theorem noNL_shot_items {bd : Row} {bt : String}
    (hcols : ∀ p ∈ bd.data, noNLs p.1) :
    ∀ x ∈ (get_top_shots bd bt 2).map pctItem, noNLs x := by
  intro x hx
  obtain ⟨sp, hsp, rfl⟩ := List.mem_map.mp hx
  obtain ⟨p, hp, hname⟩ := mem_get_top_shots hsp
  unfold pctItem
  refine noNLs_append (noNLs_append (noNLs_append ?_ (by decide)) (noNL_fmt0 sp.2)) (by decide)
  rw [hname]
  exact noNLs_u2s (noNLs_pyReplace_drop _ (hcols p hp))

/-- The Shots insight, when generated, is newline-free and non-blank. -/
theorem shot_insight_ok {bd : Row} {s : String}
    (h : generate_shot_insight bd = some s)
    (hcols : ∀ p ∈ bd.data, noNLs p.1) :
    noNLs s ∧ isBlankLine s.data = false := by
  unfold generate_shot_insight at h
  split at h
  · exact absurd h (by simp)
  · have h1 : ("**Shots:** " ++ joinSep "; " (shotParts bd) ++ ".") = s :=
      Option.some_inj.mp h
    subst h1
    constructor
    · refine noNLs_append (noNLs_append (by decide) (noNLs_joinSep (by decide) ?_)) (by decide)
      intro x hx
      unfold shotParts at hx
      rcases List.mem_append.mp hx with hx1 | hx1 <;>
        [skip; skip] <;> {
          split at hx1
          · exact absurd hx1 (List.not_mem_nil x)
          · rcases List.mem_cons.mp hx1 with rfl | hcontra
            · exact noNLs_append (by decide)
                (noNLs_joinSep (by decide) (noNL_shot_items hcols))
            · exact absurd hcontra (List.not_mem_nil x)
        }
    · refine isBlankLine_false_of_mem (Char.ofNat 42) ?_ (by decide)
      rw [String.data_append, String.data_append]
      exact List.mem_append_left _ (List.mem_append_left _ (by decide))

/-- Rendered zone items are newline-free (zone names come from the mapper). -/
theorem noNL_zone_items {bd : Row} {zt hand : String} {n : Nat} :
    ∀ x ∈ (get_top_zones bd zt hand n).map pctItem, noNLs x := by
  intro x hx
  obtain ⟨sp, hsp, rfl⟩ := List.mem_map.mp hx
  obtain ⟨z, hz, hname⟩ := mem_get_top_zones hsp
  unfold pctItem
  refine noNLs_append (noNLs_append (noNLs_append ?_ (by decide)) (noNL_fmt0 sp.2)) (by decide)
  rw [hname]
  exact noNL_zone_name z hz hand

/-- Zone names inside a top-zones list are newline-free. -/
theorem noNL_zone_fst {bd : Row} {zt hand : String} {n : Nat} :
    ∀ sp ∈ get_top_zones bd zt hand n, noNLs sp.1 := by
  intro sp hsp
  obtain ⟨z, hz, hname⟩ := mem_get_top_zones hsp
  rw [hname]
  exact noNL_zone_name z hz hand

/-- The protect advice is newline-free. -/
theorem noNL_protectAdvice {zs : List (String × ℝ)} (h : ∀ sp ∈ zs, noNLs sp.1) :
    noNLs (protectAdvice zs) := by
  unfold protectAdvice
  split
  · next a b heq =>
    have ha : a ∈ zs := List.mem_of_mem_take (heq ▸ List.mem_cons_self a [b])
    have hb : b ∈ zs := List.mem_of_mem_take (heq ▸ List.mem_cons_of_mem a (List.mem_cons_self b []))
    exact noNLs_append (noNLs_append (noNLs_append (by decide) (h a ha)) (by decide)) (h b hb)
  · next a heq =>
    have ha : a ∈ zs := List.mem_of_mem_take (heq ▸ List.mem_cons_self a [])
    exact noNLs_append (by decide) (h a ha)
  · exact (by decide)

/-- The catcher advice is newline-free. -/
theorem noNL_catchAdvice {zs : List (String × ℝ)} (h : ∀ sp ∈ zs, noNLs sp.1) :
    noNLs (catchAdvice zs) := by
  unfold catchAdvice
  split
  · next a b heq =>
    have ha : a ∈ zs := List.mem_of_mem_take (heq ▸ List.mem_cons_self a [b])
    have hb : b ∈ zs := List.mem_of_mem_take (heq ▸ List.mem_cons_of_mem a (List.mem_cons_self b []))
    exact noNLs_append (noNLs_append (noNLs_append (by decide) (h a ha)) (by decide)) (h b hb)
  · next a heq =>
    have ha : a ∈ zs := List.mem_of_mem_take (heq ▸ List.mem_cons_self a [])
    exact noNLs_append (by decide) (h a ha)
  · exact (by decide)

/-- The Boundaries insight, when generated, is newline-free and non-blank. -/
theorem boundary_insight_ok {bd : Row} {hand s : String}
    (h : generate_boundary_insight bd hand = some s) :
    noNLs s ∧ isBlankLine s.data = false := by
  unfold generate_boundary_insight at h
  split at h
  · exact absurd h (by simp)
  · have h1 : ("**Boundaries:** " ++ "Top zones: " ++
        zoneClause (get_top_zones bd "boundaries" hand 3) ++ ". " ++
        protectAdvice (get_top_zones bd "boundaries" hand 3) ++ ".") = s :=
      Option.some_inj.mp h
    subst h1
    constructor
    · refine noNLs_append (noNLs_append (noNLs_append (noNLs_append (by decide) ?_)
        (by decide)) (noNL_protectAdvice noNL_zone_fst)) (by decide)
      exact noNLs_joinSep (by decide) noNL_zone_items
    · refine isBlankLine_false_of_mem (Char.ofNat 42) ?_ (by decide)
      rw [String.data_append, String.data_append, String.data_append,
        String.data_append, String.data_append]
      exact List.mem_append_left _ (List.mem_append_left _ (List.mem_append_left _
        (List.mem_append_left _ (List.mem_append_left _ (by decide)))))

/-- The Dismissals insight, when generated, is newline-free and non-blank. -/
theorem dismissal_insight_ok {bd : Row} {hand s : String}
    (h : generate_dismissal_insight bd hand = some s) :
    noNLs s ∧ isBlankLine s.data = false := by
  unfold generate_dismissal_insight at h
  split at h
  · exact absurd h (by simp)
  · have h1 : ("**Dismissals:** " ++ "Catch zones: " ++
        zoneClause (get_top_zones bd "caught_dismissals" hand 3) ++ ". " ++
        catchAdvice (get_top_zones bd "caught_dismissals" hand 3) ++ ".") = s :=
      Option.some_inj.mp h
    subst h1
    constructor
    · refine noNLs_append (noNLs_append (noNLs_append (noNLs_append (by decide) ?_)
        (by decide)) (noNL_catchAdvice noNL_zone_fst)) (by decide)
      exact noNLs_joinSep (by decide) noNL_zone_items
    · refine isBlankLine_false_of_mem (Char.ofNat 42) ?_ (by decide)
      rw [String.data_append, String.data_append, String.data_append,
        String.data_append, String.data_append]
      exact List.mem_append_left _ (List.mem_append_left _ (List.mem_append_left _
        (List.mem_append_left _ (List.mem_append_left _ (by decide)))))

/-- Claim C10: for every generated write-up over a row whose column names
contain no newline, the derived line count equals the number of insights
(every insight is a single non-blank line and the join only inserts blank
separator lines), the stored insight count is the length of the insight
list, and at most 5 insights exist. -/
theorem claim_C10 (df : Frame) (bd : Row) (w : Writeup)
    (hgen : generate_writeup df bd = some w)
    (hcols : ∀ p ∈ bd.data, noNLs p.1) :
    w.line_count = w.num_insights ∧ w.num_insights = w.insights.length ∧
    w.insights.length ≤ 5 := by
  unfold generate_writeup at hgen
  split at hgen
  · exact absurd hgen (by simp)
  · next stats heq =>
    have hw := (Option.some_inj.mp hgen).symm
    subst hw
    have hlabs := stats_labels heq
    have hboth : ∀ i ∈ insightList stats bd, noNLs i ∧ isBlankLine i.data = false := by
      intro i hi
      unfold insightList at hi
      have h2 := List.reduceOption_mem_iff.mp hi
      simp only [List.mem_cons, List.not_mem_nil, or_false] at h2
      rcases h2 with h2 | h2 | h2 | h2 | h2
      · exact length_insight_ok h2.symm hlabs.1
      · exact line_insight_ok h2.symm hlabs.2
      · exact shot_insight_ok h2.symm hcols
      · exact boundary_insight_ok h2.symm
      · exact dismissal_insight_ok h2.symm
    refine ⟨?_, rfl, ?_⟩
    · exact count_lines_joinSep _ (fun i hi => (hboth i hi).1) (fun i hi => (hboth i hi).2)
    · show (insightList stats bd).length ≤ 5
      have hle := List.length_filterMap_le (fun x : Option String => x) ([(generate_length_insight stats false).1, (generate_line_insight stats (generate_length_insight stats false).2).1, generate_shot_insight bd, generate_boundary_insight bd bd.batting_hand, generate_dismissal_insight bd bd.batting_hand])
      exact le_trans hle (by simp)

/-- The empty-data batter has no shot columns at all. -/
theorem get_top_shots_emptyRow (bt : String) : get_top_shots rowEmptyData bt 2 = [] := by
  simp [get_top_shots, rowEmptyData, List.mergeSort_nil]

/-- The empty-data batter has no populated wagon-zone columns. -/
theorem get_top_zones_emptyRow (zt hand : String) :
    get_top_zones rowEmptyData zt hand 3 = [] := by
  simp [get_top_zones, Row.cell, rowEmptyData, zoneNums, List.mergeSort_nil]

/-- The stats pair of the empty-data batter: empty on both dimensions. -/
theorem stats_emptyData :
    get_all_length_line_stats dfEmptyData 7 = some (Outliers.mk [] [], Outliers.mk [] []) := by
  unfold get_all_length_line_stats
  rw [detect_length_emptyData, detect_line_emptyData]

/-- The empty-data batter generates no insights. -/
theorem insightList_emptyData :
    insightList (Outliers.mk [] [], Outliers.mk [] []) rowEmptyData = [] := by
  simp [insightList, generate_length_insight, generate_line_insight, generate_shot_insight,
    generate_boundary_insight, generate_dismissal_insight, get_top_shots_emptyRow,
    get_top_zones_emptyRow, List.reduceOption]

/-- A successful stats lookup determines the whole write-up record. -/
theorem generate_writeup_eq {df : Frame} {bd : Row} {stats : Stats}
    (h : get_all_length_line_stats df bd.batter_id = some stats) :
    generate_writeup df bd = some (Writeup.mk bd.bat bd.batting_hand
      (joinSep "\n\n" (insightList stats bd)) (insightList stats bd)
      (count_words (joinSep "\n\n" (insightList stats bd)))
      (count_lines (joinSep "\n\n" (insightList stats bd)))
      ((insightList stats bd).length)) := by
  unfold generate_writeup
  rw [h]

/-- The full write-up of the empty-data batter: empty text, zero counts. -/
theorem generate_writeup_emptyData :
    generate_writeup dfEmptyData rowEmptyData = some (Writeup.mk "E" "RHB" "" [] 0 0 0) := by
  rw [@generate_writeup_eq dfEmptyData rowEmptyData (Outliers.mk [] [], Outliers.mk [] []) stats_emptyData]
  rw [insightList_emptyData]
  rfl

/-- Witness for claim C10 on the empty-data batter: the write-up succeeds
with zero insights, the trivial column-name hypothesis holds, and the line
count equals the insight count. -/
theorem claim_C10_witness :
    generate_writeup dfEmptyData rowEmptyData = some (Writeup.mk "E" "RHB" "" [] 0 0 0) ∧
    (∀ p ∈ rowEmptyData.data, noNLs p.1) ∧
    ((Writeup.mk "E" "RHB" "" [] 0 0 0).line_count =
        (Writeup.mk "E" "RHB" "" [] 0 0 0).num_insights ∧
      (Writeup.mk "E" "RHB" "" [] 0 0 0).num_insights =
        (Writeup.mk "E" "RHB" "" [] 0 0 0).insights.length ∧
      (Writeup.mk "E" "RHB" "" [] 0 0 0).insights.length ≤ 5) := by
  have hc : ∀ p ∈ rowEmptyData.data, noNLs p.1 := by simp [rowEmptyData]
  exact ⟨generate_writeup_emptyData, hc,
    claim_C10 dfEmptyData rowEmptyData _ generate_writeup_emptyData hc⟩

end IPL
